import Mathlib

set_option autoImplicit false

/-!
Shallow embedding of the graph-assembly engine of `src/try1.py`
(`parse_properties_from_row`, `ensure_name`, `build_graph` with its inner
`add_nodes_from_df` helper and the relation-processing loop).

Modelling conventions:
* a pandas cell of a DataFrame read with `dtype=str` is `Option String`;
  `none` is the missing-value marker NaN (an empty CSV field), `some s` a
  string cell;
* `str()` applied to a cell renders NaN as `"nan"`;
* Python dictionaries (node/edge attribute dicts of `networkx`) are
  association lists with first-occurrence key positions and the usual
  assignment / `update` / `setdefault` semantics;
* the graph is a `networkx.DiGraph`: node ids are unique, and there is at
  most one edge per ordered `(source, target)` pair — re-adding a node or an
  edge updates its attribute dict in place;
* `json.loads` is modelled by a recursive-descent parser over the JSON
  subset with integer numbers (floats are outside the modelled subset;
  a parse failure in the model corresponds to the exception that
  `parse_properties_from_row` catches and ignores);
* an exception raised by the Python code is an `Except.error` carrying the
  exception's message (the dead helper `ensure_name` interpolates the
  candidate list; its modelled message elides the quoting of Python's list
  repr).
-/

namespace KG

/-- A pandas cell: `none` is NaN (missing / empty CSV field). -/
abbrev Cell := Option String

/-- JSON values as produced by `json.loads` (numbers restricted to integers). -/
inductive Json where
  | null : Json
  | bool : Bool → Json
  | num : Int → Json
  | str : String → Json
  | arr : List Json → Json
  | obj : List (String × Json) → Json

/-- Values stored in node/edge attribute dicts. -/
inductive AttrVal where
  | str : String → AttrVal
  | nan : AttrVal
  | bool : Bool → AttrVal
  | json : Json → AttrVal

/-- Python dict assignment `d[k] = v`: overwrite in place, else append. -/
def dictSet {α : Type} (d : List (String × α)) (k : String) (v : α) :
    List (String × α) :=
  if d.any (fun p => p.1 == k) then
    d.map (fun p => if p.1 == k then (k, v) else p)
  else d ++ [(k, v)]

/-- Python `d.update(new)`: assign each pair of `new` in order. -/
def dictUpdate {α : Type} (d new : List (String × α)) : List (String × α) :=
  new.foldl (fun d p => dictSet d p.1 p.2) d

/-- Python `d.setdefault(k, v)`: insert only when the key is absent. -/
def dictSetdefault {α : Type} (d : List (String × α)) (k : String) (v : α) :
    List (String × α) :=
  if d.any (fun p => p.1 == k) then d else d ++ [(k, v)]

/-- Python `d.get(k)` / `d[k]`. -/
def dictGet {α : Type} (d : List (String × α)) (k : String) : Option α :=
  (d.find? (fun p => p.1 == k)).map (fun p => p.2)

/-- Build a Python dict from a sequence of pairs (`Series.to_dict`):
later pairs overwrite earlier ones, first-insertion position is kept. -/
def dictFromPairs {α : Type} (ps : List (String × α)) : List (String × α) :=
  dictUpdate [] ps

/-- The whitespace characters stripped by Python `str.strip()`. -/
def pyWsChars : List Char := [' ', '\t', '\n', '\r', Char.ofNat 11, Char.ofNat 12]

def isSpace (c : Char) : Bool := pyWsChars.contains c

/-- Python `s.strip()`. -/
def pyStrip (s : String) : String :=
  ⟨((s.toList.dropWhile isSpace).reverse.dropWhile isSpace).reverse⟩

/-- Python `s.startswith(c)` for a one-character prefix. -/
def startsWithChar (s : String) (c : Char) : Bool :=
  match s.toList with
  | [] => false
  | a :: _ => a == c

/-- Python `s.endswith(c)` for a one-character suffix. -/
def endsWithChar (s : String) (c : Char) : Bool :=
  match s.toList.reverse with
  | [] => false
  | a :: _ => a == c

/-- Whitespace skipped between JSON tokens. -/
def jsonWsChars : List Char := [' ', '\t', '\n', '\r']

def jsonWs (c : Char) : Bool := jsonWsChars.contains c

def skipWs (cs : List Char) : List Char := cs.dropWhile jsonWs

/-- One escape character after a backslash in a JSON string literal
(no `\u`: a unicode escape is outside the modelled subset and fails). -/
def escChar (e : Char) : Option Char :=
  if e == 'n' then some '\n'
  else if e == 't' then some '\t'
  else if e == 'r' then some '\r'
  else if e == 'b' then some (Char.ofNat 8)
  else if e == 'f' then some (Char.ofNat 12)
  else if e == '"' || e == '\\' || e == '/' then some e
  else none

/-- Body of a JSON string literal up to its closing quote. -/
def parseStrChars : Nat → List Char → Option (List Char × List Char)
  | 0, _ => none
  | _, [] => none
  | fuel + 1, c :: rest =>
    if c == '"' then some ([], rest)
    else if c == '\\' then
      match rest with
      | [] => none
      | e :: rest2 =>
        match escChar e with
        | some ec => (parseStrChars fuel rest2).map (fun p => (ec :: p.1, p.2))
        | none => none
    else (parseStrChars fuel rest).map (fun p => (c :: p.1, p.2))

/-- Consume a run of decimal digits, accumulating their value. -/
def digitsToNat (acc : Nat) : List Char → Nat × List Char
  | [] => (acc, [])
  | c :: rest =>
    if c.isDigit then digitsToNat (acc * 10 + (c.toNat - 48)) rest
    else (acc, c :: rest)

/-- A JSON natural-number literal (no leading zeros). -/
def parseNatCs : List Char → Option (Nat × List Char)
  | [] => none
  | c :: rest =>
    if c == '0' then
      match rest with
      | [] => some (0, [])
      | d :: _ => if d.isDigit then none else some (0, rest)
    else if c.isDigit then some (digitsToNat (c.toNat - 48) rest)
    else none

/-- A JSON integer literal with optional minus sign. -/
def parseIntCs : List Char → Option (Int × List Char)
  | '-' :: rest => (parseNatCs rest).map (fun p => (-(p.1 : Int), p.2))
  | cs => (parseNatCs cs).map (fun p => ((p.1 : Int), p.2))

/-- Strip an expected literal suffix (the tail of `true`/`false`/`null`). -/
def stripLit : List Char → List Char → Option (List Char)
  | [], cs => some cs
  | l :: ls, c :: cs => if c == l then stripLit ls cs else none
  | _ :: _, [] => none

mutual

/-- One JSON value, fuelled recursive descent. -/
def parseVal : Nat → List Char → Option (Json × List Char)
  | 0, _ => none
  | fuel + 1, cs =>
    match skipWs cs with
    | '{' :: rest =>
      (match skipWs rest with
       | '}' :: r2 => some (.obj [], r2)
       | _ => (parseMembers fuel rest).map (fun p => (.obj p.1, p.2)))
    | '[' :: rest =>
      (match skipWs rest with
       | ']' :: r2 => some (.arr [], r2)
       | _ => (parseElems fuel rest).map (fun p => (.arr p.1, p.2)))
    | '"' :: rest => (parseStrChars fuel rest).map (fun p => (.str ⟨p.1⟩, p.2))
    | 't' :: rest => (stripLit ['r', 'u', 'e'] rest).map (fun r2 => (.bool true, r2))
    | 'f' :: rest => (stripLit ['a', 'l', 's', 'e'] rest).map (fun r2 => (.bool false, r2))
    | 'n' :: rest => (stripLit ['u', 'l', 'l'] rest).map (fun r2 => (.null, r2))
    | cs2 => (parseIntCs cs2).map (fun p => (.num p.1, p.2))

/-- Comma-separated array elements up to the closing bracket. -/
def parseElems : Nat → List Char → Option (List Json × List Char)
  | 0, _ => none
  | fuel + 1, cs => do
    let (v, r) ← parseVal fuel cs
    match skipWs r with
    | ',' :: r2 => do
      let (vs, r3) ← parseElems fuel r2
      pure (v :: vs, r3)
    | ']' :: r2 => pure ([v], r2)
    | _ => none

/-- Comma-separated object members up to the closing brace. -/
def parseMembers : Nat → List Char → Option (List (String × Json) × List Char)
  | 0, _ => none
  | fuel + 1, cs =>
    match skipWs cs with
    | '"' :: rest => do
      let (k, r) ← parseStrChars fuel rest
      match skipWs r with
      | ':' :: r2 => do
        let (v, r3) ← parseVal fuel r2
        match skipWs r3 with
        | ',' :: r4 => do
          let (ms, r5) ← parseMembers fuel r4
          pure ((⟨k⟩, v) :: ms, r5)
        | '}' :: r4 => pure ([(⟨k⟩, v)], r4)
        | _ => none
      | _ => none
    | _ => none

end

/-- `json.loads`: the whole input (up to trailing whitespace) must parse. -/
def json_loads (s : String) : Option Json :=
  match parseVal (s.length + 2) s.toList with
  | some (v, rest) => if skipWs rest = [] then some v else none
  | none => none

/-- The decode guard of try1.py line 59: the stripped value starts and ends
with matching braces or matching brackets. -/
def bracketDelimited (s : String) : Bool :=
  (startsWithChar s '{' && endsWithChar s '}') ||
  (startsWithChar s '[' && endsWithChar s ']')

/-- The JSON-upgrade step of `parse_properties_from_row` (try1.py lines
56-64): attempt decoding only when the stripped value is brace- or
bracket-delimited; keep the original string on failure. -/
def upgradeValue (v : String) : AttrVal :=
  if bracketDelimited (pyStrip v) then
    match json_loads (pyStrip v) with
    | some j => .json j
    | none => .str v
  else .str v

/-- A DataFrame row as the ordered association of column name to cell. -/
abbrev Row := List (String × Cell)

/-- `row.drop(labels=drop_cols, errors="ignore")`: a `none` entry in
`drop_cols` is Python's `None`, never a column name. -/
def keptPairs (row : Row) (drop_cols : List (Option String)) : Row :=
  row.filter (fun p => !(drop_cols.contains (some p.1)))

/-- `.replace("", pd.NA).dropna()`: drop missing cells and exactly-empty
strings (a whitespace-only cell is neither). -/
def nonEmptyPairs (row : Row) (drop_cols : List (Option String)) :
    List (String × String) :=
  (keptPairs row drop_cols).filterMap (fun p =>
    match p.2 with
    | none => none
    | some s => if s == "" then none else some (p.1, s))

/-- `parse_properties_from_row(row, drop_cols)` (try1.py lines 52-65):
drop the structural columns, replace empty-string cells by NA, drop NA,
convert to a dict, then JSON-upgrade each surviving string value. -/
def parse_properties_from_row (row : Row) (drop_cols : List (Option String)) :
    List (String × AttrVal) :=
  (dictFromPairs (nonEmptyPairs row drop_cols)).map
    (fun p => (p.1, upgradeValue p.2))

/-- A DataFrame: ordered column names and rows of cells (positional). -/
structure DF where
  cols : List String
  rows : List (List Cell)

/-- The inline column resolution of `build_graph`: first candidate present
among the columns. -/
def findCol (df : DF) (candidates : List String) : Option String :=
  candidates.find? (fun c => df.cols.contains c)

/-- `ensure_name` (try1.py lines 68-73; unused by `build_graph`). -/
def ensure_name (df : DF) (candidates : List String) : Except String String :=
  match candidates.find? (fun c => df.cols.contains c) with
  | some c => .ok c
  | none => .error ("None of the expected columns found in dataframe: " ++
      String.intercalate ", " candidates)

/-- A row as a Series: columns zipped with the row's cells. -/
def rowPairs (df : DF) (r : List Cell) : Row := df.cols.zip r

/-- `row[c]` for a column `c` of the row's index. -/
def rowGet (row : Row) (c : String) : Cell :=
  match row.find? (fun p => p.1 == c) with
  | some p => p.2
  | none => none

/-- Python `str()` of a cell: NaN renders as "nan". -/
def strOfCell : Cell → String
  | none => "nan"
  | some s => s

/-- Python truthiness of the `node_type` / `rel_type` variable: `None` and
the empty string are falsy, NaN and non-empty strings are truthy. -/
def truthyCell : Option Cell → Bool
  | none => false
  | some none => true
  | some (some s) => !(s == "")

/-- The attribute value stored for a raw cell: NaN passes through. -/
def attrOfCell : Option Cell → AttrVal
  | none => .nan
  | some none => .nan
  | some (some s) => .str s

/-- Node/edge attribute dicts. -/
abbrev Attrs := List (String × AttrVal)

/-- A `networkx.DiGraph`: nodes and directed edges with attribute dicts. -/
structure Graph where
  nodes : List (String × Attrs)
  edges : List (String × String × Attrs)

def Graph.empty : Graph := ⟨[], []⟩

def hasNode (G : Graph) (id : String) : Bool :=
  G.nodes.any (fun p => p.1 == id)

/-- `G.add_node(id, **attrs)`: merge attributes when the node exists. -/
def addNode (G : Graph) (id : String) (attrs : Attrs) : Graph :=
  if hasNode G id then
    { G with nodes := G.nodes.map (fun p =>
        if p.1 == id then (p.1, dictUpdate p.2 attrs) else p) }
  else { G with nodes := G.nodes ++ [(id, attrs)] }

/-- In-place mutation of one node's attribute dict
(`G.nodes[id].setdefault(...)` / `G.nodes[id].update(...)`). -/
def setNodeAttrs (G : Graph) (id : String) (f : Attrs → Attrs) : Graph :=
  { G with nodes := G.nodes.map (fun p =>
      if p.1 == id then (p.1, f p.2) else p) }

def hasEdge (G : Graph) (u v : String) : Bool :=
  G.edges.any (fun e => e.1 == u && e.2.1 == v)

/-- Auto-add of a missing endpoint performed by `DiGraph.add_edge`. -/
def ensureNode (G : Graph) (id : String) : Graph :=
  if hasNode G id then G else addNode G id []

/-- The edge bookkeeping of `DiGraph.add_edge`: update the ordered pair's
attribute dict when the edge exists, else append the edge. -/
def addEdgeRaw (G : Graph) (u v : String) (attrs : Attrs) : Graph :=
  if hasEdge G u v then
    { G with edges := G.edges.map (fun e =>
        if e.1 == u && e.2.1 == v then (e.1, e.2.1, dictUpdate e.2.2 attrs)
        else e) }
  else { G with edges := G.edges ++ [(u, v, attrs)] }

/-- `G.add_edge(u, v, **attrs)` on a `DiGraph`: auto-add missing endpoint
nodes, then update the ordered pair's attribute dict or append the edge. -/
def addEdge (G : Graph) (u v : String) (attrs : Attrs) : Graph :=
  addEdgeRaw (ensureNode (ensureNode G u) v) u v attrs

/-- The per-row body of `add_nodes_from_df` (try1.py lines 127-140):
merge when the id is present (`setdefault` for the type, `update` for the
properties), otherwise add a fresh node. -/
def processNodeRow (G : Graph) (node_id : String) (node_type : Option Cell)
    (props : List (String × AttrVal)) : Graph :=
  if hasNode G node_id then
    let G1 := if truthyCell node_type then
        setNodeAttrs G node_id
          (fun a => dictSetdefault a "node_type" (attrOfCell node_type))
      else G
    setNodeAttrs G1 node_id (fun a => dictUpdate a props)
  else
    let attrs : Attrs :=
      if truthyCell node_type then [("node_type", attrOfCell node_type)] else []
    addNode G node_id (dictUpdate attrs props)

def idCandidates : List String := ["id", "node_id", "Id", "ID"]

def typeCandidates : List String := ["type", "node_type", "Type"]

def idErrorMsg (source_label : String) : String :=
  "No id column found in " ++ source_label ++
    "; expected one of id/node_id/Id/ID"

/-- One iteration of the `df.iterrows()` loop of `add_nodes_from_df`
(try1.py lines 127-140). -/
def nodeRowStep (df : DF) (id_col : String) (type_col : Option String)
    (G : Graph) (r : List Cell) : Graph :=
  let row := rowPairs df r
  let node_id := strOfCell (rowGet row id_col)
  let node_type := type_col.map (fun tc => rowGet row tc)
  let props := parse_properties_from_row row [some id_col, type_col]
  processNodeRow G node_id node_type props

/-- `add_nodes_from_df` (try1.py lines 109-140). -/
def add_nodes_from_df (G : Graph) (df? : Option DF) (source_label : String) :
    Except String Graph :=
  match df? with
  | none => .ok G
  | some df =>
    match findCol df idCandidates with
    | none => .error (idErrorMsg source_label)
    | some id_col =>
      let type_col := findCol df typeCandidates
      .ok (df.rows.foldl (nodeRowStep df id_col type_col) G)

def sourceCandidates : List String := ["source_id", "source", "from", "From"]

def targetCandidates : List String := ["target_id", "target", "to", "To"]

def relCandidates : List String :=
  ["relationship_type", "rel_type", "type", "relationship"]

def relErrorMsg : String :=
  "Relations CSV must contain source and target columns (e.g. source_id, target_id)"

def placeholderAttrs : Attrs :=
  [("node_type", .str "unknown"), ("placeholder", .bool true)]

/-- The placeholder synthesis `if src not in G: G.add_node(src,
node_type="unknown", placeholder=True)` (try1.py lines 174-177). -/
def guardAdd (G : Graph) (x : String) : Graph :=
  if hasNode G x then G else addNode G x placeholderAttrs

/-- `rel_type = row[rel_col] if rel_col and rel_col in row.index else
"RELATED_TO"` (try1.py line 171). -/
def relTypeOfRow (rel_col : Option String) (df : DF) (r : List Cell) : AttrVal :=
  match rel_col with
  | some rc => attrOfCell (some (rowGet (rowPairs df r) rc))
  | none => .str "RELATED_TO"

/-- The attribute dict passed to `G.add_edge` (try1.py lines 178-179). -/
def relRowAttrs (s_col t_col : String) (rel_col : Option String) (df : DF)
    (r : List Cell) : Attrs :=
  dictUpdate [("relationship", relTypeOfRow rel_col df r)]
    (parse_properties_from_row (rowPairs df r) [some s_col, some t_col, rel_col])

/-- The per-row body of the relation loop (try1.py lines 168-180):
synthesize missing endpoints as placeholders, then add the edge. -/
def processRelRow (s_col t_col : String) (rel_col : Option String) (df : DF)
    (G : Graph) (r : List Cell) : Graph :=
  addEdge
    (guardAdd (guardAdd G (strOfCell (rowGet (rowPairs df r) s_col)))
      (strOfCell (rowGet (rowPairs df r) t_col)))
    (strOfCell (rowGet (rowPairs df r) s_col))
    (strOfCell (rowGet (rowPairs df r) t_col))
    (relRowAttrs s_col t_col rel_col df r)

/-- The relation-table stage of `build_graph` (try1.py lines 146-180). -/
def add_edges_from_df (G : Graph) (rels? : Option DF) : Except String Graph :=
  match rels? with
  | none => .ok G
  | some df =>
    match findCol df sourceCandidates, findCol df targetCandidates with
    | some s_col, some t_col =>
      let rel_col := findCol df relCandidates
      .ok (df.rows.foldl (processRelRow s_col t_col rel_col df) G)
    | some _, none => .error relErrorMsg
    | none, _ => .error relErrorMsg

/-- `build_graph` (try1.py lines 105-182): node tables first, then the
relation table; a raised exception propagates and aborts the whole call. -/
def build_graph (nodes_doc_df nodes_draw_df relations_df : Option DF) :
    Except String Graph :=
  match add_nodes_from_df Graph.empty nodes_doc_df "nodes_doc" with
  | .error e => .error e
  | .ok G1 =>
    match add_nodes_from_df G1 nodes_draw_df "nodes_draw" with
    | .error e => .error e
    | .ok G2 => add_edges_from_df G2 relations_df

/-! Derived vocabulary used to state the verified properties. -/

/-- First-occurrence insertion: how a `DiGraph` accumulates node ids. -/
def insertIfAbsent (l : List String) (x : String) : List String :=
  if l.any (fun y => y == x) then l else l ++ [x]

/-- First-occurrence insertion of an ordered edge pair. -/
def pairInsert (l : List (String × String)) (uv : String × String) :
    List (String × String) :=
  if l.any (fun p => p.1 == uv.1 && p.2 == uv.2) then l else l ++ [uv]

/-- The node ids of the graph, in insertion order. -/
def nodeKeys (G : Graph) : List String := G.nodes.map Prod.fst

/-- The ordered (source, target) pairs of the graph's edges. -/
def edgePairs (G : Graph) : List (String × String) :=
  G.edges.map (fun e => (e.1, e.2.1))

/-- The attribute dict of a node (empty when the node is absent). -/
def getNodeAttrs (G : Graph) (id : String) : Attrs :=
  match G.nodes.find? (fun p => p.1 == id) with
  | some p => p.2
  | none => []

/-- Substring test (used to reason about error-message contents). -/
def strContains (s pat : String) : Bool :=
  (List.range (s.length + 1)).any
    (fun i => (s.toList.drop i).take pat.length == pat.toList)

/-- The `str()`-coerced id cells of a node table, in row order. -/
def dfNodeIds (df : DF) (id_col : String) : List String :=
  df.rows.map (fun r => strOfCell (rowGet (rowPairs df r) id_col))

/-- The `str()`-coerced (source, target) cells of a relation table. -/
def dfRelPairs (df : DF) (s_col t_col : String) : List (String × String) :=
  df.rows.map (fun r =>
    (strOfCell (rowGet (rowPairs df r) s_col),
     strOfCell (rowGet (rowPairs df r) t_col)))

def flattenPairs : List (String × String) → List String
  | [] => []
  | p :: t => p.1 :: p.2 :: flattenPairs t

/-- The coerced ids contributed by one node table (empty when the table is
absent or its id column does not resolve). -/
def nodeIdsOf : Option DF → List String
  | none => []
  | some df =>
    match findCol df idCandidates with
    | none => []
    | some c => dfNodeIds df c

/-- The coerced endpoint ids contributed by the relation table. -/
def endpointIdsOf : Option DF → List String
  | none => []
  | some df =>
    match findCol df sourceCandidates, findCol df targetCandidates with
    | some s, some t => flattenPairs (dfRelPairs df s t)
    | _, _ => []

/-- The coerced edge pairs contributed by the relation table. -/
def relPairsOf : Option DF → List (String × String)
  | none => []
  | some df =>
    match findCol df sourceCandidates, findCol df targetCandidates with
    | some s, some t => dfRelPairs df s t
    | _, _ => []

/-- Every id entering the graph, in processing order. -/
def allIds (d1 d2 r : Option DF) : List String :=
  nodeIdsOf d1 ++ nodeIdsOf d2 ++ endpointIdsOf r

/-! Sample inputs used by witnesses and counterexamples (cells as read by
`pd.read_csv(..., dtype=str)`: `none` is an empty CSV field). -/

def tblA : DF := ⟨["id", "type", "name"], [[some "n1", some "Part", some "Bolt"]]⟩

def tblB : DF := ⟨["id", "type", "name"], [[some "n2", some "Part", some "Nut"]]⟩

def tblR : DF := ⟨["source_id", "target_id", "relationship_type"],
  [[some "n1", some "n2", some "fastens"], [some "n1", some "n3", some "refs"]]⟩

/-- The graph assembled from the spec's section-8 scenario. -/
def scenarioGraph : Graph :=
  (build_graph (some tblA) (some tblB) (some tblR)).toOption.getD Graph.empty

/-- Relation table with two rows carrying the same ordered (source, target)
pair and different relation types. -/
def relsDup : DF := ⟨["source_id", "target_id", "relationship_type"],
  [[some "n1", some "n2", some "a"], [some "n1", some "n2", some "b"]]⟩

def dupPairGraph : Graph :=
  (build_graph none none (some relsDup)).toOption.getD Graph.empty

/-- One-row relation table referencing the undeclared endpoint n3. -/
def relsP : DF := ⟨["source_id", "target_id", "relationship_type"],
  [[some "n1", some "n3", some "refs"]]⟩

/-- Node table declaring n3 with a real type, processed after the relation
table (the spec's "second pass" / "processed afterwards" situation). -/
def nodesLate : DF := ⟨["id", "type", "name"],
  [[some "n3", some "Part", some "Bolt"]]⟩

def lateGraph : Graph :=
  (build_graph none none (some relsP)).toOption.getD Graph.empty

def lateGraph2 : Graph :=
  (add_nodes_from_df lateGraph (some nodesLate) "late").toOption.getD Graph.empty

/-- Node table whose first row for id X has an empty (NaN) type cell and
whose second row supplies the real type "Part". -/
def nodesNan : DF := ⟨["id", "type"], [[some "X", none], [some "X", some "Part"]]⟩

def nanTypeGraph : Graph :=
  (add_nodes_from_df Graph.empty (some nodesNan) "nodes_doc").toOption.getD
    Graph.empty

/-- Every edge of the graph records the same relation-type value. -/
def allEdgesGet (G : Graph) (v : AttrVal) : Prop :=
  ∀ e ∈ G.edges, dictGet e.2.2 "relationship" = some v

/-- Relation table with no column from the relation-type alias list. -/
def relsNoRelCol : DF := ⟨["source_id", "target_id"], [[some "a", some "b"]]⟩

def sentinelGraph : Graph :=
  (build_graph none none (some relsNoRelCol)).toOption.getD Graph.empty

/-- Relation table whose relation-type column resolves but whose single
row's cell is empty (NaN after `read_csv`). -/
def relsEmptyCell : DF := ⟨["source_id", "target_id", "relationship_type"],
  [[some "a", some "b", none]]⟩

def emptyCellGraph : Graph :=
  (build_graph none none (some relsEmptyCell)).toOption.getD Graph.empty

/-- Relation table whose columns match none of the source/target aliases. -/
def relsBadCols : DF := ⟨["src", "dst"], [[some "a", some "b"]]⟩

/-- Node table using the legacy alias "node_id". -/
def nodesAlt : DF := ⟨["node_id"], [[some "x"]]⟩

/-- Node table with no id-alias column at all. -/
def nodesNoId : DF := ⟨["name"], [[some "q"]]⟩

/-- A well-formed node table. -/
def nodesGood : DF := ⟨["id", "type"], [[some "g1", some "T"]]⟩

def goodGraph : Graph :=
  (add_nodes_from_df Graph.empty (some nodesGood) "nodes_doc").toOption.getD
    Graph.empty

/-! Basic lemmas about `find?`, `any` and the Python-dict operations. -/

theorem find?_append {α : Type} (l1 l2 : List α) (p : α → Bool) :
    (l1 ++ l2).find? p = ((l1.find? p).orElse (fun _ => l2.find? p)) := by
  induction l1 with
  | nil => simp
  | cons a t ih =>
    by_cases h : p a = true
    · simp [List.find?_cons, h]
    · simp only [List.cons_append, List.find?_cons, h]
      simpa [h] using ih

theorem dictGet_eq_none_of_not_mem {α : Type} (d : List (String × α)) (k : String)
    (h : k ∉ d.map Prod.fst) : dictGet d k = none := by
  induction d with
  | nil => rfl
  | cons p t ih =>
    simp only [List.map_cons, List.mem_cons] at h
    push_neg at h
    have h1 : (p.1 == k) = false := by simp [h.1.symm]
    simp only [dictGet, List.find?_cons, h1, cond_false] at ih ⊢
    exact ih h.2

theorem find?_setLoop_self {α : Type} (l : List (String × α)) (k : String) (v : α)
    (h : l.any (fun p => p.1 == k) = true) :
    (l.map (fun p => if p.1 == k then (k, v) else p)).find? (fun p => p.1 == k)
      = some (k, v) := by
  induction l with
  | nil => simp at h
  | cons q t ih =>
    by_cases hq : (q.1 == k) = true
    · simp only [List.map_cons, if_pos hq, List.find?_cons, BEq.refl, cond_true]
    · have ht : t.any (fun p => p.1 == k) = true := by
        simp only [List.any_cons, Bool.or_eq_true] at h
        exact h.resolve_left hq
      have hqf : (q.1 == k) = false := by simpa using hq
      rw [List.map_cons, if_neg hq, List.find?_cons, hqf]
      exact ih ht

theorem find?_setLoop_other {α : Type} (l : List (String × α)) (k k' : String) (v : α)
    (hne : k' ≠ k) :
    (l.map (fun p => if p.1 == k then (k, v) else p)).find? (fun p => p.1 == k')
      = l.find? (fun p => p.1 == k') := by
  induction l with
  | nil => rfl
  | cons q t ih =>
    by_cases hq : (q.1 == k) = true
    · have hqk : q.1 = k := by simpa using hq
      have h1 : (k == k') = false := by simp [Ne.symm hne]
      have h2 : (q.1 == k') = false := by simp [hqk, Ne.symm hne]
      simp only [List.map_cons, if_pos hq, List.find?_cons, h1, h2, cond_false]
      exact ih
    · simp only [List.map_cons, if_neg hq, List.find?_cons]
      by_cases hp : (q.1 == k') = true
      · simp only [hp, cond_true]
      · have hpf : (q.1 == k') = false := by simpa using hp
        simp only [hpf, cond_false]
        exact ih

theorem dictGet_dictSet {α : Type} (d : List (String × α)) (k k' : String) (v : α) :
    dictGet (dictSet d k v) k' = if k' = k then some v else dictGet d k' := by
  unfold dictSet dictGet
  by_cases hany : d.any (fun p => p.1 == k) = true
  · rw [if_pos hany]
    by_cases hk : k' = k
    · subst hk
      rw [find?_setLoop_self d k' v hany, if_pos rfl]
      rfl
    · rw [find?_setLoop_other d k k' v hk, if_neg hk]
  · rw [if_neg hany]
    have hany' : d.any (fun p => p.1 == k) = false := by
      cases h : d.any (fun p => p.1 == k)
      · rfl
      · exact absurd h hany
    have hnone : d.find? (fun p => p.1 == k) = none := by
      rw [List.find?_eq_none]
      intro x hx
      exact List.any_eq_false.mp hany' x hx
    by_cases hk : k' = k
    · subst hk
      rw [find?_append, hnone, if_pos rfl]
      simp
    · rw [find?_append, if_neg hk]
      have h1 : List.find? (fun p => p.1 == k') [(k, v)] = none := by
        simp [List.find?_cons, Ne.symm hk]
      rw [h1]
      cases h : d.find? (fun p => p.1 == k') <;> simp

theorem dictGet_dictUpdate_none {α : Type} (d new : List (String × α)) (k : String)
    (h : dictGet new k = none) :
    dictGet (dictUpdate d new) k = dictGet d k := by
  induction new generalizing d with
  | nil => rfl
  | cons q rest ih =>
    have hq : (q.1 == k) = false := by
      by_cases hh : (q.1 == k) = true
      · exfalso
        simp [dictGet, List.find?_cons, hh] at h
      · simpa using hh
    have hrest : dictGet rest k = none := by
      simpa [dictGet, List.find?_cons, hq] using h
    have hne : ¬(k = q.1) := by
      intro hk
      rw [hk] at hq
      simp at hq
    show dictGet (dictUpdate (dictSet d q.1 q.2) rest) k = dictGet d k
    rw [ih _ hrest, dictGet_dictSet, if_neg hne]

theorem dictGet_dictUpdate_some {α : Type} (d new : List (String × α)) (k : String)
    (v : α) (hnd : (new.map Prod.fst).Nodup) (h : dictGet new k = some v) :
    dictGet (dictUpdate d new) k = some v := by
  induction new generalizing d with
  | nil => simp [dictGet] at h
  | cons q rest ih =>
    simp only [List.map_cons, List.nodup_cons] at hnd
    by_cases hq : (q.1 == k) = true
    · have hqk : q.1 = k := by simpa using hq
      have hv : q.2 = v := by
        simpa [dictGet, List.find?_cons, hq] using h
      have hrest : dictGet rest k = none := by
        apply dictGet_eq_none_of_not_mem
        rw [← hqk]
        exact hnd.1
      show dictGet (dictUpdate (dictSet d q.1 q.2) rest) k = some v
      rw [dictGet_dictUpdate_none _ _ _ hrest, dictGet_dictSet, if_pos hqk.symm, hv]
    · have hqf : (q.1 == k) = false := by simpa using hq
      have hrest : dictGet rest k = some v := by
        simpa [dictGet, List.find?_cons, hqf] using h
      show dictGet (dictUpdate (dictSet d q.1 q.2) rest) k = some v
      exact ih _ hnd.2 hrest

theorem keys_dictSet {α : Type} (d : List (String × α)) (k : String) (v : α) :
    (dictSet d k v).map Prod.fst =
      if d.any (fun p => p.1 == k) then d.map Prod.fst
      else d.map Prod.fst ++ [k] := by
  unfold dictSet
  by_cases h : d.any (fun p => p.1 == k) = true
  · rw [if_pos h, if_pos h, List.map_map]
    congr 1
    funext p
    by_cases hp : p.1 = k <;> simp [hp]
  · rw [if_neg h, if_neg h, List.map_append]
    rfl

theorem nodup_keys_dictSet {α : Type} (d : List (String × α)) (k : String) (v : α)
    (h : (d.map Prod.fst).Nodup) : ((dictSet d k v).map Prod.fst).Nodup := by
  rw [keys_dictSet]
  by_cases hany : d.any (fun p => p.1 == k) = true
  · rwa [if_pos hany]
  · rw [if_neg hany]
    have hk : k ∉ d.map Prod.fst := by
      intro hmem
      rcases List.mem_map.mp hmem with ⟨p, hp, hpk⟩
      exact hany (List.any_eq_true.mpr ⟨p, hp, by simp [hpk]⟩)
    exact List.Nodup.append h (List.nodup_singleton k)
      (by simpa [List.disjoint_singleton] using hk)

theorem nodup_keys_dictUpdate {α : Type} (d new : List (String × α))
    (h : (d.map Prod.fst).Nodup) : ((dictUpdate d new).map Prod.fst).Nodup := by
  induction new generalizing d with
  | nil => exact h
  | cons q rest ih => exact ih _ (nodup_keys_dictSet _ _ _ h)

theorem nodup_keys_dictFromPairs {α : Type} (ps : List (String × α)) :
    ((dictFromPairs ps).map Prod.fst).Nodup :=
  nodup_keys_dictUpdate [] ps (by simp)

theorem dictSetdefault_of_get_some {α : Type} (d : List (String × α))
    (k : String) (v w : α) (h : dictGet d k = some v) :
    dictSetdefault d k w = d := by
  unfold dictSetdefault
  rw [if_pos]
  unfold dictGet at h
  cases hf : d.find? (fun p => p.1 == k) with
  | none => rw [hf] at h; simp at h
  | some p =>
    have hmem := List.mem_of_find?_eq_some hf
    have hpred := List.find?_some (p := fun q : String × α => q.1 == k) hf
    exact List.any_eq_true.mpr ⟨p, hmem, hpred⟩

theorem dictSetdefault_of_get_none {α : Type} (d : List (String × α))
    (k : String) (w : α) (h : dictGet d k = none) :
    dictSetdefault d k w = d ++ [(k, w)] := by
  unfold dictSetdefault
  rw [if_neg]
  intro hany
  rcases List.any_eq_true.mp hany with ⟨p, hp, hpk⟩
  unfold dictGet at h
  have hf := Option.map_eq_none'.mp h
  rw [List.find?_eq_none] at hf
  exact hf p hp hpk

theorem dictGet_append_single_self {α : Type} (d : List (String × α))
    (k : String) (w : α) (h : dictGet d k = none) :
    dictGet (d ++ [(k, w)]) k = some w := by
  unfold dictGet at h ⊢
  have hf := Option.map_eq_none'.mp h
  rw [find?_append, hf]
  simp [List.find?_cons]

/-! Membership lemmas for dict construction, used to trace surviving
property keys and values back to the originating row cells. -/

theorem mem_dictSet_elim {α : Type} (d : List (String × α)) (k0 : String)
    (v0 : α) (k : String) (v : α) (h : (k, v) ∈ dictSet d k0 v0) :
    (k, v) ∈ d ∨ (k = k0 ∧ v = v0) := by
  unfold dictSet at h
  split at h
  · rcases List.mem_map.mp h with ⟨p, hp, hpk⟩
    by_cases hc : (p.1 == k0) = true
    · rw [if_pos hc] at hpk
      right
      have h2 := (Prod.mk.injEq _ _ _ _).mp hpk
      exact ⟨h2.1.symm, h2.2.symm⟩
    · rw [if_neg hc] at hpk
      left
      rwa [hpk] at hp
  · rcases List.mem_append.mp h with hd | hs
    · exact Or.inl hd
    · right
      have : (k, v) = (k0, v0) := List.mem_singleton.mp hs
      exact ⟨(Prod.mk.injEq _ _ _ _).mp this |>.1,
        (Prod.mk.injEq _ _ _ _).mp this |>.2⟩

theorem mem_dictSet_keys {α : Type} (d : List (String × α)) (k0 : String)
    (v0 : α) (k : String) (h : ∃ v, (k, v) ∈ d) :
    ∃ v, (k, v) ∈ dictSet d k0 v0 := by
  unfold dictSet
  rcases h with ⟨v, hv⟩
  split
  · by_cases hk : k = k0
    · exact ⟨v0, List.mem_map.mpr ⟨(k, v), hv, by simp [hk]⟩⟩
    · exact ⟨v, List.mem_map.mpr ⟨(k, v), hv, by simp [hk]⟩⟩
  · exact ⟨v, List.mem_append_left _ hv⟩

theorem mem_dictSet_self {α : Type} (d : List (String × α)) (k0 : String)
    (v0 : α) : ∃ v, (k0, v) ∈ dictSet d k0 v0 := by
  unfold dictSet
  split
  next hany =>
    rcases List.any_eq_true.mp hany with ⟨p, hp, hpk⟩
    exact ⟨v0, List.mem_map.mpr ⟨p, hp, by simp [hpk]⟩⟩
  next => exact ⟨v0, List.mem_append_right _ (by simp)⟩

theorem mem_dictUpdate_elim {α : Type} (d new : List (String × α)) (k : String)
    (v : α) (h : (k, v) ∈ dictUpdate d new) : (k, v) ∈ d ∨ (k, v) ∈ new := by
  induction new generalizing d with
  | nil => exact Or.inl h
  | cons q rest ih =>
    rcases ih (dictSet d q.1 q.2) h with h2 | h2
    · rcases mem_dictSet_elim _ _ _ _ _ h2 with h3 | ⟨hk, hv⟩
      · exact Or.inl h3
      · right
        rw [hk, hv]
        exact List.mem_cons_self _ _
    · exact Or.inr (List.mem_cons_of_mem _ h2)

theorem mem_keys_dictUpdate {α : Type} (d new : List (String × α)) (k : String) :
    (∃ v, (k, v) ∈ dictUpdate d new) ↔
      (∃ v, (k, v) ∈ d) ∨ (∃ v, (k, v) ∈ new) := by
  induction new generalizing d with
  | nil =>
    show (∃ v, (k, v) ∈ d) ↔ _
    simp
  | cons q rest ih =>
    constructor
    · rintro ⟨v, hv⟩
      rcases (ih (dictSet d q.1 q.2)).mp ⟨v, hv⟩ with ⟨v', hv'⟩ | ⟨v', hv'⟩
      · rcases mem_dictSet_elim _ _ _ _ _ hv' with h2 | ⟨hk, _⟩
        · exact Or.inl ⟨v', h2⟩
        · right
          refine ⟨q.2, ?_⟩
          rw [hk]
          exact List.mem_cons_self _ _
      · exact Or.inr ⟨v', List.mem_cons_of_mem _ hv'⟩
    · intro h
      show ∃ v, (k, v) ∈ dictUpdate (dictSet d q.1 q.2) rest
      rcases h with ⟨v, hv⟩ | ⟨v, hv⟩
      · exact (ih _).mpr (Or.inl (mem_dictSet_keys _ _ _ _ ⟨v, hv⟩))
      · rcases List.mem_cons.mp hv with heq | hrest
        · have hk : k = q.1 := (Prod.mk.injEq _ _ _ _).mp heq |>.1
          apply (ih _).mpr
          left
          rw [hk]
          exact mem_dictSet_self _ _ _
        · exact (ih _).mpr (Or.inr ⟨v, hrest⟩)

theorem mem_nonEmptyPairs_iff (row : Row) (drop_cols : List (Option String))
    (k s : String) :
    (k, s) ∈ nonEmptyPairs row drop_cols ↔
      (drop_cols.contains (some k) = false ∧ (k, some s) ∈ row ∧ s ≠ "") := by
  unfold nonEmptyPairs keptPairs
  rw [List.mem_filterMap]
  constructor
  · rintro ⟨p, hp, hf⟩
    rcases List.mem_filter.mp hp with ⟨hmem, hpred⟩
    cases hc : p.2 with
    | none =>
      rw [hc] at hf
      have hf2 : (none : Option (String × String)) = some (k, s) := hf
      exact absurd hf2 (by simp)
    | some s' =>
      rw [hc] at hf
      have hf2 : (if (s' == "") = true then none else some (p.1, s'))
          = some (k, s) := hf
      by_cases he : (s' == "") = true
      · rw [if_pos he] at hf2
        exact absurd hf2 (by simp)
      · rw [if_neg he] at hf2
        have hf3 := Option.some.inj hf2
        have hk : p.1 = k := (Prod.mk.injEq _ _ _ _).mp hf3 |>.1
        have hs : s' = s := (Prod.mk.injEq _ _ _ _).mp hf3 |>.2
        refine ⟨?_, ?_, ?_⟩
        · have : (!(drop_cols.contains (some p.1))) = true := hpred
          rw [hk] at this
          simpa using this
        · have h2 : p.2 = some s := by rw [hc, hs]
          have hps : p = (k, some s) := by
            rw [← hk, ← h2]
          rwa [hps] at hmem
        · intro hcon
          rw [hs, hcon] at he
          simp at he
  · rintro ⟨hdc, hmem, hs⟩
    refine ⟨(k, some s), List.mem_filter.mpr ⟨hmem, by simpa using hdc⟩, ?_⟩
    have : (if (s == "") = true then none else some (k, s)) = some (k, s) := by
      rw [if_neg (by simpa using hs)]
    exact this

theorem parse_properties_key_iff (row : Row) (drop_cols : List (Option String))
    (k : String) :
    (∃ v, (k, v) ∈ parse_properties_from_row row drop_cols) ↔
      (drop_cols.contains (some k) = false ∧
        ∃ s, (k, some s) ∈ row ∧ s ≠ "") := by
  unfold parse_properties_from_row
  constructor
  · rintro ⟨v, hv⟩
    rcases List.mem_map.mp hv with ⟨p, hp, hpe⟩
    have hk : p.1 = k := (Prod.mk.injEq _ _ _ _).mp hpe |>.1
    have hkey : ∃ w, (k, w) ∈ dictFromPairs (nonEmptyPairs row drop_cols) := by
      refine ⟨p.2, ?_⟩
      rw [← hk]
      exact hp
    rcases (mem_keys_dictUpdate [] _ k).mp hkey with ⟨w, hw⟩ | ⟨w, hw⟩
    · exact absurd hw (by simp)
    · rcases (mem_nonEmptyPairs_iff row drop_cols k w).mp hw with ⟨h1, h2, h3⟩
      exact ⟨h1, w, h2, h3⟩
  · rintro ⟨hdc, s, hmem, hs⟩
    have hne : (k, s) ∈ nonEmptyPairs row drop_cols :=
      (mem_nonEmptyPairs_iff row drop_cols k s).mpr ⟨hdc, hmem, hs⟩
    rcases (mem_keys_dictUpdate [] (nonEmptyPairs row drop_cols) k).mpr
      (Or.inr ⟨s, hne⟩) with ⟨w, hw⟩
    exact ⟨upgradeValue w, List.mem_map.mpr ⟨(k, w), hw, rfl⟩⟩

theorem parse_properties_value_src (row : Row) (drop_cols : List (Option String))
    (k : String) (v : AttrVal)
    (h : (k, v) ∈ parse_properties_from_row row drop_cols) :
    ∃ s, (k, some s) ∈ row ∧ s ≠ "" ∧ v = upgradeValue s := by
  unfold parse_properties_from_row at h
  rcases List.mem_map.mp h with ⟨p, hp, hpe⟩
  have hk : p.1 = k := (Prod.mk.injEq _ _ _ _).mp hpe |>.1
  have hv : upgradeValue p.2 = v := (Prod.mk.injEq _ _ _ _).mp hpe |>.2
  have hmem : (k, p.2) ∈ dictFromPairs (nonEmptyPairs row drop_cols) := by
    rw [← hk]
    exact hp
  rcases mem_dictUpdate_elim [] _ _ _ hmem with h2 | h2
  · exact absurd h2 (by simp)
  · rcases (mem_nonEmptyPairs_iff row drop_cols k p.2).mp h2 with ⟨_, h3, h4⟩
    exact ⟨p.2, h3, h4, hv.symm⟩

/-! Graph-level lemmas: how the DiGraph operations act on node keys,
edge pairs and attribute dicts. -/

theorem find?_updLoop_self {α : Type} (l : List (String × α)) (k : String)
    (f : α → α) :
    (l.map (fun p => if p.1 == k then (p.1, f p.2) else p)).find?
        (fun p => p.1 == k)
      = (l.find? (fun p => p.1 == k)).map (fun p => (p.1, f p.2)) := by
  induction l with
  | nil => rfl
  | cons q t ih =>
    by_cases hq : (q.1 == k) = true
    · rw [List.map_cons, if_pos hq, List.find?_cons, List.find?_cons, hq]
      simp [hq]
    · have hqf : (q.1 == k) = false := by simpa using hq
      rw [List.map_cons, if_neg hq, List.find?_cons, List.find?_cons, hqf]
      exact ih

theorem keys_updLoop {α : Type} (l : List (String × α)) (k : String) (f : α → α) :
    (l.map (fun p => if p.1 == k then (p.1, f p.2) else p)).map Prod.fst
      = l.map Prod.fst := by
  rw [List.map_map]
  congr 1
  funext p
  by_cases hp : p.1 = k <;> simp [hp]

theorem nodeKeys_setNodeAttrs (G : Graph) (id : String) (f : Attrs → Attrs) :
    nodeKeys (setNodeAttrs G id f) = nodeKeys G :=
  keys_updLoop G.nodes id f

theorem edges_setNodeAttrs (G : Graph) (id : String) (f : Attrs → Attrs) :
    (setNodeAttrs G id f).edges = G.edges := rfl

theorem edges_addNode (G : Graph) (id : String) (a : Attrs) :
    (addNode G id a).edges = G.edges := by
  unfold addNode
  split <;> rfl

theorem nodeKeys_addNode (G : Graph) (id : String) (a : Attrs) :
    nodeKeys (addNode G id a) =
      if hasNode G id then nodeKeys G else nodeKeys G ++ [id] := by
  unfold addNode
  by_cases h : hasNode G id = true
  · rw [if_pos h, if_pos h]
    exact keys_updLoop G.nodes id (fun x => dictUpdate x a)
  · rw [if_neg h, if_neg h]
    unfold nodeKeys
    simp

theorem any_map_fst {α : Type} (l : List (String × α)) (id : String) :
    (l.map Prod.fst).any (fun y => y == id) = l.any (fun p => p.1 == id) := by
  induction l with
  | nil => rfl
  | cons q t ih => simp [List.any_cons, ih]

theorem hasNode_eq_keys_any (G : Graph) (id : String) :
    hasNode G id = (nodeKeys G).any (fun y => y == id) := by
  unfold hasNode nodeKeys
  rw [any_map_fst]

theorem hasNode_iff_mem (G : Graph) (id : String) :
    hasNode G id = true ↔ id ∈ nodeKeys G := by
  rw [hasNode_eq_keys_any, List.any_eq_true]
  constructor
  · rintro ⟨y, hy, hyk⟩
    have : y = id := by simpa using hyk
    rwa [← this]
  · intro h
    exact ⟨id, h, by simp⟩

theorem nodeKeys_processNodeRow (G : Graph) (id : String) (nt : Option Cell)
    (props : List (String × AttrVal)) :
    nodeKeys (processNodeRow G id nt props) = insertIfAbsent (nodeKeys G) id := by
  unfold processNodeRow insertIfAbsent
  rw [← hasNode_eq_keys_any]
  by_cases h : hasNode G id = true
  · rw [if_pos h, if_pos h]
    by_cases ht : truthyCell nt = true <;>
      simp [ht, nodeKeys_setNodeAttrs]
  · have hf : hasNode G id = false := by simpa using h
    rw [if_neg h, if_neg h, nodeKeys_addNode, if_neg h]

theorem edges_processNodeRow (G : Graph) (id : String) (nt : Option Cell)
    (props : List (String × AttrVal)) :
    (processNodeRow G id nt props).edges = G.edges := by
  unfold processNodeRow
  by_cases h : hasNode G id = true
  · rw [if_pos h]
    by_cases ht : truthyCell nt = true <;> simp [ht, edges_setNodeAttrs]
  · rw [if_neg h]
    exact edges_addNode _ _ _

/-! Membership and no-duplication lemmas for first-occurrence insertion. -/

theorem mem_insertIfAbsent_self (l : List String) (x : String) :
    x ∈ insertIfAbsent l x := by
  unfold insertIfAbsent
  by_cases h : l.any (fun y => y == x) = true
  · rw [if_pos h]
    rcases List.any_eq_true.mp h with ⟨y, hy, hyx⟩
    have : y = x := by simpa using hyx
    rwa [← this]
  · rw [if_neg h]
    simp

theorem mem_insertIfAbsent_mono (l : List String) (x y : String) (h : x ∈ l) :
    x ∈ insertIfAbsent l y := by
  unfold insertIfAbsent
  split
  · exact h
  · exact List.mem_append_left _ h

theorem insertIfAbsent_of_mem (l : List String) (x : String) (h : x ∈ l) :
    insertIfAbsent l x = l := by
  unfold insertIfAbsent
  rw [if_pos (List.any_eq_true.mpr ⟨x, h, by simp⟩)]

theorem nodup_insertIfAbsent (l : List String) (x : String) (h : l.Nodup) :
    (insertIfAbsent l x).Nodup := by
  unfold insertIfAbsent
  by_cases hx : l.any (fun y => y == x) = true
  · rwa [if_pos hx]
  · rw [if_neg hx]
    have hnx : x ∉ l := by
      intro hmem
      exact hx (List.any_eq_true.mpr ⟨x, hmem, by simp⟩)
    exact List.Nodup.append h (List.nodup_singleton x)
      (by simpa [List.disjoint_singleton] using hnx)

theorem nodup_pairInsert (l : List (String × String)) (uv : String × String)
    (h : l.Nodup) : (pairInsert l uv).Nodup := by
  unfold pairInsert
  by_cases hx : l.any (fun p => p.1 == uv.1 && p.2 == uv.2) = true
  · rwa [if_pos hx]
  · rw [if_neg hx]
    have hnx : uv ∉ l := by
      intro hmem
      exact hx (List.any_eq_true.mpr ⟨uv, hmem, by simp⟩)
    exact List.Nodup.append h (List.nodup_singleton uv)
      (by simpa [List.disjoint_singleton] using hnx)

/-! Edge-level lemmas. -/

theorem edges_ensureNode (G : Graph) (id : String) :
    (ensureNode G id).edges = G.edges := by
  unfold ensureNode
  split
  · rfl
  · exact edges_addNode _ _ _

theorem nodeKeys_ensureNode (G : Graph) (id : String) :
    nodeKeys (ensureNode G id) = insertIfAbsent (nodeKeys G) id := by
  unfold ensureNode insertIfAbsent
  rw [← hasNode_eq_keys_any]
  by_cases h : hasNode G id = true
  · rw [if_pos h, if_pos h]
  · rw [if_neg h, if_neg h, nodeKeys_addNode, if_neg h]

theorem nodes_addEdgeRaw (G : Graph) (u v : String) (a : Attrs) :
    (addEdgeRaw G u v a).nodes = G.nodes := by
  unfold addEdgeRaw
  split <;> rfl

theorem any_map_pairs (l : List (String × String × Attrs)) (u v : String) :
    (l.map (fun e => (e.1, e.2.1))).any (fun p => p.1 == u && p.2 == v)
      = l.any (fun e => e.1 == u && e.2.1 == v) := by
  induction l with
  | nil => rfl
  | cons q t ih => simp [List.any_cons, ih]

theorem hasEdge_eq_pairs_any (G : Graph) (u v : String) :
    hasEdge G u v = (edgePairs G).any (fun p => p.1 == u && p.2 == v) := by
  unfold hasEdge edgePairs
  rw [any_map_pairs]

theorem edgePairs_addEdgeRaw (G : Graph) (u v : String) (a : Attrs) :
    edgePairs (addEdgeRaw G u v a) = pairInsert (edgePairs G) (u, v) := by
  unfold addEdgeRaw pairInsert
  rw [← hasEdge_eq_pairs_any]
  by_cases h : hasEdge G u v = true
  · rw [if_pos h, if_pos h]
    unfold edgePairs
    rw [List.map_map]
    congr 1
    funext e
    by_cases he : e.1 = u ∧ e.2.1 = v
    · simp [he.1, he.2]
    · simp only [Function.comp]
      rw [if_neg (by simpa using he)]
  · rw [if_neg h, if_neg h]
    unfold edgePairs
    simp

theorem nodeKeys_addEdge (G : Graph) (u v : String) (a : Attrs) :
    nodeKeys (addEdge G u v a) =
      insertIfAbsent (insertIfAbsent (nodeKeys G) u) v := by
  unfold addEdge
  have h1 : nodeKeys (addEdgeRaw (ensureNode (ensureNode G u) v) u v a)
      = nodeKeys (ensureNode (ensureNode G u) v) := by
    unfold nodeKeys
    rw [nodes_addEdgeRaw]
  rw [h1, nodeKeys_ensureNode, nodeKeys_ensureNode]

theorem edgePairs_addEdge (G : Graph) (u v : String) (a : Attrs) :
    edgePairs (addEdge G u v a) = pairInsert (edgePairs G) (u, v) := by
  unfold addEdge
  rw [edgePairs_addEdgeRaw]
  have : edgePairs (ensureNode (ensureNode G u) v) = edgePairs G := by
    unfold edgePairs
    rw [edges_ensureNode, edges_ensureNode]
  rw [this]

theorem nodeKeys_guardAdd (G : Graph) (x : String) :
    nodeKeys (guardAdd G x) = insertIfAbsent (nodeKeys G) x := by
  unfold guardAdd insertIfAbsent
  rw [← hasNode_eq_keys_any]
  by_cases h : hasNode G x = true
  · rw [if_pos h, if_pos h]
  · rw [if_neg h, if_neg h, nodeKeys_addNode, if_neg h]

theorem edges_guardAdd (G : Graph) (x : String) :
    (guardAdd G x).edges = G.edges := by
  unfold guardAdd
  split
  · rfl
  · exact edges_addNode _ _ _

theorem nodeKeys_processRelRow (s_col t_col : String) (rel_col : Option String)
    (df : DF) (G : Graph) (r : List Cell) :
    nodeKeys (processRelRow s_col t_col rel_col df G r) =
      insertIfAbsent
        (insertIfAbsent (nodeKeys G)
          (strOfCell (rowGet (rowPairs df r) s_col)))
        (strOfCell (rowGet (rowPairs df r) t_col)) := by
  unfold processRelRow
  generalize strOfCell (rowGet (rowPairs df r) s_col) = src
  generalize strOfCell (rowGet (rowPairs df r) t_col) = tgt
  rw [nodeKeys_addEdge, nodeKeys_guardAdd, nodeKeys_guardAdd]
  have hs : src ∈ insertIfAbsent (insertIfAbsent (nodeKeys G) src) tgt :=
    mem_insertIfAbsent_mono _ _ _ (mem_insertIfAbsent_self _ _)
  rw [insertIfAbsent_of_mem _ _ hs]
  have ht : tgt ∈ insertIfAbsent (insertIfAbsent (nodeKeys G) src) tgt :=
    mem_insertIfAbsent_self _ _
  rw [insertIfAbsent_of_mem _ _ ht]

theorem edgePairs_processRelRow (s_col t_col : String) (rel_col : Option String)
    (df : DF) (G : Graph) (r : List Cell) :
    edgePairs (processRelRow s_col t_col rel_col df G r) =
      pairInsert (edgePairs G)
        (strOfCell (rowGet (rowPairs df r) s_col),
         strOfCell (rowGet (rowPairs df r) t_col)) := by
  unfold processRelRow
  rw [edgePairs_addEdge]
  congr 1
  unfold edgePairs
  rw [edges_guardAdd, edges_guardAdd]

/-! Accumulation of node ids and edge pairs over a whole assembly pass. -/

theorem foldl_pres {α β γ : Type} (f : α → β) (step : α → γ → α) (g : β → γ → β)
    (h : ∀ a c, f (step a c) = g (f a) c) :
    ∀ (l : List γ) (a : α), f (List.foldl step a l) = List.foldl g (f a) l := by
  intro l
  induction l with
  | nil => intro a; rfl
  | cons c t ih =>
    intro a
    rw [List.foldl_cons, List.foldl_cons, ih, h]

theorem foldl_const {β γ : Type} (l : List γ) (b : β) :
    List.foldl (fun e (_ : γ) => e) b l = b := by
  induction l generalizing b with
  | nil => rfl
  | cons c t ih => rw [List.foldl_cons]; exact ih b

theorem foldl_insert_flattenPairs (ps : List (String × String))
    (ks : List String) :
    List.foldl insertIfAbsent ks (flattenPairs ps) =
      List.foldl (fun ks p => insertIfAbsent (insertIfAbsent ks p.1) p.2) ks ps := by
  induction ps generalizing ks with
  | nil => rfl
  | cons p t ih => rw [flattenPairs, List.foldl_cons, List.foldl_cons,
      List.foldl_cons]; exact ih _

theorem nodeKeys_nodeFold (df : DF) (id_col : String) (type_col : Option String)
    (G : Graph) :
    nodeKeys (df.rows.foldl (nodeRowStep df id_col type_col) G) =
      List.foldl insertIfAbsent (nodeKeys G) (dfNodeIds df id_col) := by
  unfold dfNodeIds
  rw [List.foldl_map]
  exact foldl_pres nodeKeys (nodeRowStep df id_col type_col)
    (fun ks r => insertIfAbsent ks (strOfCell (rowGet (rowPairs df r) id_col)))
    (fun G r => nodeKeys_processNodeRow G _ _ _) df.rows G

theorem edges_nodeFold (df : DF) (id_col : String) (type_col : Option String)
    (G : Graph) :
    (df.rows.foldl (nodeRowStep df id_col type_col) G).edges = G.edges := by
  have := foldl_pres Graph.edges (nodeRowStep df id_col type_col)
    (fun e _ => e) (fun G r => edges_processNodeRow G _ _ _) df.rows G
  rw [this, foldl_const]

theorem nodeKeys_relFold (df : DF) (s_col t_col : String)
    (rel_col : Option String) (G : Graph) :
    nodeKeys (df.rows.foldl (processRelRow s_col t_col rel_col df) G) =
      List.foldl (fun ks p => insertIfAbsent (insertIfAbsent ks p.1) p.2)
        (nodeKeys G) (dfRelPairs df s_col t_col) := by
  unfold dfRelPairs
  rw [List.foldl_map]
  exact foldl_pres nodeKeys (processRelRow s_col t_col rel_col df)
    (fun ks r => insertIfAbsent
      (insertIfAbsent ks (strOfCell (rowGet (rowPairs df r) s_col)))
      (strOfCell (rowGet (rowPairs df r) t_col)))
    (fun G r => nodeKeys_processRelRow s_col t_col rel_col df G r) df.rows G

theorem edgePairs_relFold (df : DF) (s_col t_col : String)
    (rel_col : Option String) (G : Graph) :
    edgePairs (df.rows.foldl (processRelRow s_col t_col rel_col df) G) =
      List.foldl pairInsert (edgePairs G) (dfRelPairs df s_col t_col) := by
  unfold dfRelPairs
  rw [List.foldl_map]
  exact foldl_pres edgePairs (processRelRow s_col t_col rel_col df)
    (fun ps r => pairInsert ps
      (strOfCell (rowGet (rowPairs df r) s_col),
       strOfCell (rowGet (rowPairs df r) t_col)))
    (fun G r => edgePairs_processRelRow s_col t_col rel_col df G r) df.rows G

theorem add_nodes_ok_nodeKeys (G G' : Graph) (df? : Option DF) (label : String)
    (h : add_nodes_from_df G df? label = .ok G') :
    nodeKeys G' = List.foldl insertIfAbsent (nodeKeys G) (nodeIdsOf df?) := by
  cases df? with
  | none =>
    cases h
    rfl
  | some df =>
    simp only [add_nodes_from_df] at h
    cases hc : findCol df idCandidates with
    | none =>
      rw [hc] at h
      exact Except.noConfusion h
    | some c =>
      rw [hc] at h
      cases h
      simp only [nodeIdsOf]
      rw [hc, nodeKeys_nodeFold]

theorem add_nodes_ok_edges (G G' : Graph) (df? : Option DF) (label : String)
    (h : add_nodes_from_df G df? label = .ok G') :
    G'.edges = G.edges := by
  cases df? with
  | none =>
    cases h
    rfl
  | some df =>
    simp only [add_nodes_from_df] at h
    cases hc : findCol df idCandidates with
    | none =>
      rw [hc] at h
      exact Except.noConfusion h
    | some c =>
      rw [hc] at h
      cases h
      exact edges_nodeFold df c _ G

theorem add_edges_ok_nodeKeys (G G' : Graph) (r : Option DF)
    (h : add_edges_from_df G r = .ok G') :
    nodeKeys G' = List.foldl insertIfAbsent (nodeKeys G) (endpointIdsOf r) := by
  cases r with
  | none =>
    cases h
    rfl
  | some df =>
    simp only [add_edges_from_df] at h
    cases hs : findCol df sourceCandidates with
    | none =>
      rw [hs] at h
      exact Except.noConfusion h
    | some s =>
      cases ht : findCol df targetCandidates with
      | none =>
        rw [hs, ht] at h
        exact Except.noConfusion h
      | some t =>
        rw [hs, ht] at h
        cases h
        simp only [endpointIdsOf]
        rw [hs, ht, foldl_insert_flattenPairs, nodeKeys_relFold]

theorem add_edges_ok_edgePairs (G G' : Graph) (r : Option DF)
    (h : add_edges_from_df G r = .ok G') :
    edgePairs G' = List.foldl pairInsert (edgePairs G) (relPairsOf r) := by
  cases r with
  | none =>
    cases h
    rfl
  | some df =>
    simp only [add_edges_from_df] at h
    cases hs : findCol df sourceCandidates with
    | none =>
      rw [hs] at h
      exact Except.noConfusion h
    | some s =>
      cases ht : findCol df targetCandidates with
      | none =>
        rw [hs, ht] at h
        exact Except.noConfusion h
      | some t =>
        rw [hs, ht] at h
        cases h
        simp only [relPairsOf]
        rw [hs, ht, edgePairs_relFold]

theorem build_graph_ok_elim (d1 d2 r : Option DF) (G : Graph)
    (h : build_graph d1 d2 r = .ok G) :
    ∃ G1 G2, add_nodes_from_df Graph.empty d1 "nodes_doc" = .ok G1 ∧
      add_nodes_from_df G1 d2 "nodes_draw" = .ok G2 ∧
      add_edges_from_df G2 r = .ok G := by
  unfold build_graph at h
  split at h
  next e heq => exact Except.noConfusion h
  next G1 heq1 =>
    split at h
    next e heq => exact Except.noConfusion h
    next G2 heq2 => exact ⟨G1, G2, heq1, heq2, h⟩

theorem build_ok_nodeKeys (d1 d2 r : Option DF) (G : Graph)
    (h : build_graph d1 d2 r = .ok G) :
    nodeKeys G = List.foldl insertIfAbsent [] (allIds d1 d2 r) := by
  rcases build_graph_ok_elim d1 d2 r G h with ⟨G1, G2, h1, h2, h3⟩
  have k1 := add_nodes_ok_nodeKeys _ _ _ _ h1
  have k2 := add_nodes_ok_nodeKeys _ _ _ _ h2
  have k3 := add_edges_ok_nodeKeys _ _ _ h3
  rw [k3, k2, k1]
  unfold allIds
  rw [List.foldl_append, List.foldl_append]
  rfl

theorem build_ok_edgePairs (d1 d2 r : Option DF) (G : Graph)
    (h : build_graph d1 d2 r = .ok G) :
    edgePairs G = List.foldl pairInsert [] (relPairsOf r) := by
  rcases build_graph_ok_elim d1 d2 r G h with ⟨G1, G2, h1, h2, h3⟩
  have e1 : G1.edges = [] := add_nodes_ok_edges _ _ _ _ h1
  have e2 : G2.edges = [] := by
    rw [add_nodes_ok_edges _ _ _ _ h2]
    exact e1
  have k3 := add_edges_ok_edgePairs _ _ _ h3
  rw [k3]
  unfold edgePairs
  rw [e2]
  rfl

theorem nodup_foldl_insertIfAbsent (l acc : List String) (h : acc.Nodup) :
    (List.foldl insertIfAbsent acc l).Nodup := by
  induction l generalizing acc with
  | nil => exact h
  | cons x t ih => exact ih _ (nodup_insertIfAbsent _ _ h)

theorem nodup_foldl_pairInsert (l : List (String × String))
    (acc : List (String × String)) (h : acc.Nodup) :
    (List.foldl pairInsert acc l).Nodup := by
  induction l generalizing acc with
  | nil => exact h
  | cons x t ih => exact ih _ (nodup_pairInsert _ _ h)

theorem add_nodes_total (G : Graph) (df : DF) (label c : String)
    (hc : findCol df idCandidates = some c) :
    add_nodes_from_df G (some df) label =
      .ok (df.rows.foldl (nodeRowStep df c (findCol df typeCandidates)) G) := by
  simp only [add_nodes_from_df]
  rw [hc]

theorem add_edges_total (G : Graph) (df : DF) (s t : String)
    (hs : findCol df sourceCandidates = some s)
    (ht : findCol df targetCandidates = some t) :
    add_edges_from_df G (some df) =
      .ok (df.rows.foldl (processRelRow s t (findCol df relCandidates) df) G) := by
  simp only [add_edges_from_df]
  rw [hs, ht]

theorem build_graph_eq_of_stages (d1 d2 r : Option DF) (G1 G2 G3 : Graph)
    (hG1 : add_nodes_from_df Graph.empty d1 "nodes_doc" = .ok G1)
    (hG2 : add_nodes_from_df G1 d2 "nodes_draw" = .ok G2)
    (hG3 : add_edges_from_df G2 r = .ok G3) :
    build_graph d1 d2 r = .ok G3 := by
  unfold build_graph
  rw [hG1]
  show (match add_nodes_from_df G1 d2 "nodes_draw" with
        | .error e => (.error e : Except String Graph)
        | .ok g => add_edges_from_df g r) = .ok G3
  rw [hG2]
  exact hG3

/-- C1: for every set of input tables, after assembly each entity id occurs
at most once in the graph's node set — a later node-table row or relation
endpoint bearing an id already present merges into the existing entity's
attribute dict instead of adding a duplicate node. -/
theorem build_graph_node_ids_unique (d1 d2 r : Option DF) (G : Graph)
    (h : build_graph d1 d2 r = .ok G) :
    (G.nodes.map Prod.fst).Nodup := by
  have hk := build_ok_nodeKeys d1 d2 r G h
  show (nodeKeys G).Nodup
  rw [hk]
  exact nodup_foldl_insertIfAbsent _ _ List.nodup_nil

/-- Witness for C1: the spec scenario's three tables build successfully and
the resulting node ids are duplicate-free. -/
theorem build_graph_node_ids_unique_witness :
    (scenarioGraph.nodes.map Prod.fst).Nodup :=
  build_graph_node_ids_unique (some tblA) (some tblB) (some tblR)
    scenarioGraph (by rfl)

/-- C2 counterexample: two relation rows for the ordered pair (n1, n2) with
relation types "a" and "b" yield a single retained edge whose relation type
is the second row's "b" — the DiGraph deduplicates edges by ordered pair
instead of retaining both. -/
theorem edges_not_all_retained_cex :
    relsDup.rows.length = 2 ∧
    dupPairGraph.edges = [("n1", "n2", [("relationship", AttrVal.str "b")])] :=
  ⟨rfl, rfl⟩

/-- C2 (amended): the assembled graph is directed, but edges deduplicate by
ordered (source, target) pair — the built graph never retains two edges with
the same ordered pair; a later relation row for an existing pair overwrites
that edge's attribute dict instead of adding a parallel edge. -/
theorem build_graph_edge_pairs_unique (d1 d2 r : Option DF) (G : Graph)
    (h : build_graph d1 d2 r = .ok G) :
    (G.edges.map (fun e => (e.1, e.2.1))).Nodup := by
  have hk := build_ok_edgePairs d1 d2 r G h
  show (edgePairs G).Nodup
  rw [hk]
  exact nodup_foldl_pairInsert _ _ List.nodup_nil

/-- Witness for the amended C2 at the duplicated-pair relation table. -/
theorem build_graph_edge_pairs_unique_witness :
    (dupPairGraph.edges.map (fun e => (e.1, e.2.1))).Nodup :=
  build_graph_edge_pairs_unique none none (some relsDup) dupPairGraph (by rfl)

/-- C10: the node set of the assembled graph is exactly the first-occurrence
deduplication of the `str()`-coerced id cells and relation-endpoint cells in
processing order — so ids merge exactly when their string renderings are
equal — and assembly never fails as long as the mandatory columns resolve,
whatever the id cells contain (missing cells coerce to "nan"). -/
theorem build_graph_ids_coerced (d1 d2 r : Option DF)
    (h1 : ∀ df, d1 = some df → ∃ c, findCol df idCandidates = some c)
    (h2 : ∀ df, d2 = some df → ∃ c, findCol df idCandidates = some c)
    (h3 : ∀ df, r = some df → (∃ s, findCol df sourceCandidates = some s) ∧
      (∃ t, findCol df targetCandidates = some t)) :
    ∃ G, build_graph d1 d2 r = .ok G ∧
      G.nodes.map Prod.fst = List.foldl insertIfAbsent [] (allIds d1 d2 r) := by
  obtain ⟨G1, hG1⟩ : ∃ G1, add_nodes_from_df Graph.empty d1 "nodes_doc" = .ok G1 := by
    cases d1 with
    | none => exact ⟨Graph.empty, rfl⟩
    | some df =>
      obtain ⟨c, hc⟩ := h1 df rfl
      exact ⟨_, add_nodes_total _ _ _ _ hc⟩
  obtain ⟨G2, hG2⟩ : ∃ G2, add_nodes_from_df G1 d2 "nodes_draw" = .ok G2 := by
    cases d2 with
    | none => exact ⟨G1, rfl⟩
    | some df =>
      obtain ⟨c, hc⟩ := h2 df rfl
      exact ⟨_, add_nodes_total _ _ _ _ hc⟩
  obtain ⟨G3, hG3⟩ : ∃ G3, add_edges_from_df G2 r = .ok G3 := by
    cases r with
    | none => exact ⟨G2, rfl⟩
    | some df =>
      obtain ⟨⟨s, hs⟩, ⟨t, ht⟩⟩ := h3 df rfl
      exact ⟨_, add_edges_total _ _ _ _ hs ht⟩
  have hb := build_graph_eq_of_stages d1 d2 r G1 G2 G3 hG1 hG2 hG3
  exact ⟨G3, hb, build_ok_nodeKeys d1 d2 r G3 hb⟩

/-! Attribute-level lemmas about the per-row node upsert. -/

theorem getNodeAttrs_setNodeAttrs_self (G : Graph) (id : String)
    (f : Attrs → Attrs) (h : hasNode G id = true) :
    getNodeAttrs (setNodeAttrs G id f) id = f (getNodeAttrs G id) := by
  unfold getNodeAttrs setNodeAttrs
  rw [find?_updLoop_self]
  cases hf : G.nodes.find? (fun p => p.1 == id) with
  | none =>
    exfalso
    unfold hasNode at h
    rcases List.any_eq_true.mp h with ⟨p, hp, hpk⟩
    rw [List.find?_eq_none] at hf
    exact hf p hp hpk
  | some p => simp

theorem getNodeAttrs_addNode_absent (G : Graph) (id : String) (a : Attrs)
    (h : hasNode G id = false) :
    getNodeAttrs (addNode G id a) id = a := by
  unfold addNode
  rw [if_neg (by simp [h])]
  unfold getNodeAttrs
  unfold hasNode at h
  have hf : G.nodes.find? (fun p => p.1 == id) = none := by
    rw [List.find?_eq_none]
    intro x hx
    exact List.any_eq_false.mp h x hx
  rw [find?_append, hf]
  simp [List.find?_cons]

theorem hasNode_addNode_self (G : Graph) (id : String) (a : Attrs) :
    hasNode (addNode G id a) id = true := by
  rw [hasNode_iff_mem, nodeKeys_addNode]
  by_cases h : hasNode G id = true
  · rw [if_pos h]
    exact (hasNode_iff_mem G id).mp h
  · have hb : hasNode G id = false := by simpa using h
    rw [if_neg (by simp [hb])]
    exact List.mem_append_right _ (by simp)

theorem hasNode_setNodeAttrs (G : Graph) (id x : String) (f : Attrs → Attrs) :
    hasNode (setNodeAttrs G id f) x = hasNode G x := by
  rw [hasNode_eq_keys_any, hasNode_eq_keys_any, nodeKeys_setNodeAttrs]

/-- C3 (amended): an id entering the graph only as a relation endpoint gets
exactly the attributes node_type="unknown", placeholder=True; a later
node-row upsert for that id (whose surviving property columns do not include
the attribute names "placeholder" or "node_type") merges its properties but
never clears the placeholder flag and never replaces the "unknown" type —
`setdefault` keeps the first type and nothing ever deletes the flag. -/
theorem placeholder_not_cleared (G : Graph) (id : String) (nt : Option Cell)
    (props : List (String × AttrVal))
    (habs : hasNode G id = false)
    (hp : dictGet props "placeholder" = none)
    (hq : dictGet props "node_type" = none) :
    getNodeAttrs (addNode G id placeholderAttrs) id = placeholderAttrs ∧
    dictGet (getNodeAttrs
        (processNodeRow (addNode G id placeholderAttrs) id nt props) id)
      "node_type" = some (AttrVal.str "unknown") ∧
    dictGet (getNodeAttrs
        (processNodeRow (addNode G id placeholderAttrs) id nt props) id)
      "placeholder" = some (AttrVal.bool true) := by
  have h1 : getNodeAttrs (addNode G id placeholderAttrs) id = placeholderAttrs :=
    getNodeAttrs_addNode_absent G id placeholderAttrs habs
  have hhas : hasNode (addNode G id placeholderAttrs) id = true :=
    hasNode_addNode_self G id placeholderAttrs
  have hfinal : getNodeAttrs
      (processNodeRow (addNode G id placeholderAttrs) id nt props) id
      = dictUpdate placeholderAttrs props := by
    unfold processNodeRow
    rw [if_pos hhas]
    by_cases htr : truthyCell nt = true
    · rw [if_pos htr]
      have hset : hasNode (setNodeAttrs (addNode G id placeholderAttrs) id
          (fun a => dictSetdefault a "node_type" (attrOfCell nt))) id = true := by
        rw [hasNode_setNodeAttrs]
        exact hhas
      rw [getNodeAttrs_setNodeAttrs_self _ _ _ hset,
        getNodeAttrs_setNodeAttrs_self _ _ _ hhas, h1,
        dictSetdefault_of_get_some _ _ (AttrVal.str "unknown") _ (by rfl)]
    · rw [if_neg htr, getNodeAttrs_setNodeAttrs_self _ _ _ hhas, h1]
  refine ⟨h1, ?_, ?_⟩
  · rw [hfinal, dictGet_dictUpdate_none _ _ _ hq]
    rfl
  · rw [hfinal, dictGet_dictUpdate_none _ _ _ hp]
    rfl

/-- Witness for the amended C3: a placeholder "n3" later upserted with type
"Part" and one property keeps the flag and the "unknown" type. -/
theorem placeholder_not_cleared_witness :
    getNodeAttrs (addNode Graph.empty "n3" placeholderAttrs) "n3"
      = placeholderAttrs ∧
    dictGet (getNodeAttrs
        (processNodeRow (addNode Graph.empty "n3" placeholderAttrs) "n3"
          (some (some "Part")) [("name", AttrVal.str "Bolt")]) "n3")
      "node_type" = some (AttrVal.str "unknown") ∧
    dictGet (getNodeAttrs
        (processNodeRow (addNode Graph.empty "n3" placeholderAttrs) "n3"
          (some (some "Part")) [("name", AttrVal.str "Bolt")]) "n3")
      "placeholder" = some (AttrVal.bool true) :=
  placeholder_not_cleared Graph.empty "n3" (some (some "Part"))
    [("name", AttrVal.str "Bolt")] rfl rfl rfl

/-- C3 counterexample: after the placeholder n3 exists, a node-table row for
n3 with type "Part" and a property merges the property but leaves
placeholder=True and node_type="unknown" — the flag is never cleared and the
type never reflects the node-table row. -/
theorem placeholder_clear_cex :
    dictGet (getNodeAttrs lateGraph2 "n3") "placeholder"
      = some (AttrVal.bool true) ∧
    dictGet (getNodeAttrs lateGraph2 "n3") "node_type"
      = some (AttrVal.str "unknown") ∧
    dictGet (getNodeAttrs lateGraph2 "n3") "node_type"
      ≠ some (AttrVal.str "Part") ∧
    dictGet (getNodeAttrs lateGraph2 "n3") "name" = some (AttrVal.str "Bolt") := by
  refine ⟨rfl, rfl, ?_, rfl⟩
  intro hcontra
  have hval : dictGet (getNodeAttrs lateGraph2 "n3") "node_type"
      = some (AttrVal.str "unknown") := rfl
  rw [hval] at hcontra
  have h2 := Option.some.inj hcontra
  injection h2 with h3
  exact absurd h3 (by decide)

/-- C4 counterexample: a missing (NaN) type cell in a resolved type column is
truthy in Python and is stored, so the assembled type is the NaN marker and
the later row's real type "Part" — the first non-absent type — never wins. -/
theorem type_first_nonabsent_cex :
    dictGet (getNodeAttrs nanTypeGraph "X") "node_type" = some AttrVal.nan ∧
    dictGet (getNodeAttrs nanTypeGraph "X") "node_type"
      ≠ some (AttrVal.str "Part") := by
  refine ⟨rfl, ?_⟩
  intro hcontra
  have hval : dictGet (getNodeAttrs nanTypeGraph "X") "node_type"
      = some AttrVal.nan := rfl
  rw [hval] at hcontra
  exact AttrVal.noConfusion (Option.some.inj hcontra)

/-- C4 (amended): at the node-row upsert for an existing id whose surviving
property columns do not include the literal key "node_type", the stored type
is first-Python-truthy-wins — an already-present type value is never
overwritten (`setdefault`), a missing type value is set from any truthy
incoming cell (including the NaN of an empty cell, which counts as truthy) —
while incoming properties overwrite existing keys (last-wins). -/
theorem merger_type_first_truthy_props_last (G : Graph) (id : String)
    (nt : Option Cell) (props : List (String × AttrVal))
    (hhas : hasNode G id = true)
    (hnd : (props.map Prod.fst).Nodup)
    (hpr : dictGet props "node_type" = none) :
    (∀ v, dictGet (getNodeAttrs G id) "node_type" = some v →
      dictGet (getNodeAttrs (processNodeRow G id nt props) id) "node_type"
        = some v) ∧
    (dictGet (getNodeAttrs G id) "node_type" = none → truthyCell nt = true →
      dictGet (getNodeAttrs (processNodeRow G id nt props) id) "node_type"
        = some (attrOfCell nt)) ∧
    (∀ k w, dictGet props k = some w →
      dictGet (getNodeAttrs (processNodeRow G id nt props) id) k = some w) := by
  have hfinal : getNodeAttrs (processNodeRow G id nt props) id =
      dictUpdate (if truthyCell nt
        then dictSetdefault (getNodeAttrs G id) "node_type" (attrOfCell nt)
        else getNodeAttrs G id) props := by
    unfold processNodeRow
    rw [if_pos hhas]
    by_cases htr : truthyCell nt = true
    · have hset : hasNode (setNodeAttrs G id
          (fun a => dictSetdefault a "node_type" (attrOfCell nt))) id = true := by
        rw [hasNode_setNodeAttrs]
        exact hhas
      rw [if_pos htr, if_pos htr,
        getNodeAttrs_setNodeAttrs_self _ _ _ hset,
        getNodeAttrs_setNodeAttrs_self _ _ _ hhas]
    · rw [if_neg htr, if_neg htr, getNodeAttrs_setNodeAttrs_self _ _ _ hhas]
  refine ⟨?_, ?_, ?_⟩
  · intro v hv
    rw [hfinal, dictGet_dictUpdate_none _ _ _ hpr]
    by_cases htr : truthyCell nt = true
    · rw [if_pos htr, dictSetdefault_of_get_some _ _ _ _ hv]
      exact hv
    · rw [if_neg htr]
      exact hv
  · intro hnone htr
    rw [hfinal, dictGet_dictUpdate_none _ _ _ hpr, if_pos htr,
      dictSetdefault_of_get_none _ _ _ hnone,
      dictGet_append_single_self _ _ _ hnone]
  · intro k w hk
    rw [hfinal]
    exact dictGet_dictUpdate_some _ _ _ _ hnd hk

/-- Witness for the amended C4: an entity with stored type "A" upserted with
type cell "B" and a property keeps type "A" and takes the property. -/
theorem merger_type_first_truthy_props_last_witness :
    dictGet (getNodeAttrs (processNodeRow
        (addNode Graph.empty "X" [("node_type", AttrVal.str "A")]) "X"
        (some (some "B")) [("name", AttrVal.str "Bolt")]) "X") "node_type"
      = some (AttrVal.str "A") ∧
    dictGet (getNodeAttrs (processNodeRow
        (addNode Graph.empty "X" [("node_type", AttrVal.str "A")]) "X"
        (some (some "B")) [("name", AttrVal.str "Bolt")]) "X") "name"
      = some (AttrVal.str "Bolt") :=
  ⟨(merger_type_first_truthy_props_last
      (addNode Graph.empty "X" [("node_type", AttrVal.str "A")]) "X"
      (some (some "B")) [("name", AttrVal.str "Bolt")]
      rfl (by simp) rfl).1 (AttrVal.str "A") rfl,
   (merger_type_first_truthy_props_last
      (addNode Graph.empty "X" [("node_type", AttrVal.str "A")]) "X"
      (some (some "B")) [("name", AttrVal.str "Bolt")]
      rfl (by simp) rfl).2.2 "name" (AttrVal.str "Bolt") rfl⟩

/-! Relation-type recording lemmas. -/

theorem contains_iff_mem_str (l : List String) (a : String) :
    l.contains a = true ↔ a ∈ l :=
  List.elem_iff

theorem relCandidates_unresolved_not_mem (df : DF)
    (hno : findCol df relCandidates = none) :
    "relationship" ∉ df.cols := by
  intro hmem
  unfold findCol at hno
  rw [List.find?_eq_none] at hno
  have h := hno "relationship" (by simp [relCandidates])
  exact h ((contains_iff_mem_str _ _).mpr hmem)

theorem relRowAttrs_get (s_col t_col : String) (rc? : Option String) (df : DF)
    (r : List Cell)
    (hsafe : "relationship" ∈ df.cols → rc? = some "relationship") :
    dictGet (relRowAttrs s_col t_col rc? df r) "relationship"
      = some (relTypeOfRow rc? df r) := by
  unfold relRowAttrs
  have hkeys : "relationship" ∉
      (parse_properties_from_row (rowPairs df r)
        [some s_col, some t_col, rc?]).map Prod.fst := by
    intro hmem
    rcases List.mem_map.mp hmem with ⟨p, hp, hpk⟩
    have hkey : ∃ v, ("relationship", v) ∈ parse_properties_from_row
        (rowPairs df r) [some s_col, some t_col, rc?] := by
      refine ⟨p.2, ?_⟩
      rw [← hpk]
      simpa using hp
    rcases (parse_properties_key_iff _ _ _).mp hkey with ⟨hdc, s', hmem', _⟩
    have hcols : "relationship" ∈ df.cols := by
      unfold rowPairs at hmem'
      exact (List.of_mem_zip hmem').1
    rw [hsafe hcols] at hdc
    simp at hdc
  rw [dictGet_dictUpdate_none _ _ _ (dictGet_eq_none_of_not_mem _ _ hkeys)]
  rfl

theorem addEdgeRaw_relget (G : Graph) (u w : String) (a : Attrs) (v : AttrVal)
    (hGa : allEdgesGet G v)
    (hrel : dictGet a "relationship" = some v)
    (hnd : (a.map Prod.fst).Nodup) :
    allEdgesGet (addEdgeRaw G u w a) v := by
  unfold allEdgesGet at *
  unfold addEdgeRaw
  split
  · intro e he
    have he' : e ∈ G.edges.map (fun e =>
        if e.1 == u && e.2.1 == w then (e.1, e.2.1, dictUpdate e.2.2 a)
        else e) := he
    rcases List.mem_map.mp he' with ⟨e0, he0, heq⟩
    by_cases hc : (e0.1 == u && e0.2.1 == w) = true
    · rw [if_pos hc] at heq
      rw [← heq]
      exact dictGet_dictUpdate_some _ _ _ _ hnd hrel
    · rw [if_neg hc] at heq
      rw [← heq]
      exact hGa e0 he0
  · intro e he
    have he' : e ∈ G.edges ++ [(u, w, a)] := he
    rcases List.mem_append.mp he' with hmem | hmem
    · exact hGa e hmem
    · rw [List.mem_singleton.mp hmem]
      exact hrel

theorem guardAdd_relget (G : Graph) (x : String) (v : AttrVal)
    (h : allEdgesGet G v) : allEdgesGet (guardAdd G x) v := by
  unfold allEdgesGet at *
  intro e he
  rw [edges_guardAdd] at he
  exact h e he

theorem ensureNode_relget (G : Graph) (x : String) (v : AttrVal)
    (h : allEdgesGet G v) : allEdgesGet (ensureNode G x) v := by
  unfold allEdgesGet at *
  intro e he
  rw [edges_ensureNode] at he
  exact h e he

theorem processRelRow_relget (s t : String) (rc? : Option String) (df : DF)
    (G : Graph) (r : List Cell) (v : AttrVal)
    (hG : allEdgesGet G v)
    (hrel : dictGet (relRowAttrs s t rc? df r) "relationship" = some v) :
    allEdgesGet (processRelRow s t rc? df G r) v := by
  unfold processRelRow addEdge
  apply addEdgeRaw_relget
  · exact ensureNode_relget _ _ _ (ensureNode_relget _ _ _
      (guardAdd_relget _ _ _ (guardAdd_relget _ _ _ hG)))
  · exact hrel
  · unfold relRowAttrs
    apply nodup_keys_dictUpdate
    simp

theorem relFold_relget (s t : String) (rc? : Option String) (df : DF)
    (v : AttrVal)
    (hrow : ∀ r, dictGet (relRowAttrs s t rc? df r) "relationship" = some v) :
    ∀ (rows : List (List Cell)) (G : Graph), allEdgesGet G v →
      allEdgesGet (rows.foldl (processRelRow s t rc? df) G) v := by
  intro rows
  induction rows with
  | nil => intro G h; exact h
  | cons r rest ih =>
    intro G h
    exact ih _ (processRelRow_relget _ _ _ _ _ _ _ h (hrow r))

/-- C5 counterexample: with a resolved relation-type column and an empty
cell, the built edge records the raw missing-value marker, not the sentinel
"RELATED_TO" — the per-row empty cell is not replaced by the sentinel. -/
theorem relation_type_empty_cell_cex :
    emptyCellGraph.edges = [("a", "b", [("relationship", AttrVal.nan)])] ∧
    AttrVal.nan ≠ AttrVal.str "RELATED_TO" :=
  ⟨rfl, fun h => AttrVal.noConfusion h⟩

/-- C5 (amended): the sentinel "RELATED_TO" is recorded only when the
relation table has no column from the relation-type alias list (then every
edge of that table gets the sentinel); when the column resolves, the built
Relation records the row's raw cell value — for a one-row table whose
surviving property columns cannot shadow the "relationship" attribute, the
edge's relation type is exactly the raw cell, so an empty cell yields the
missing-value marker rather than the sentinel. -/
theorem relation_type_sentinel (d1 d2 : Option DF) (df : DF) (G : Graph) :
    (findCol df relCandidates = none →
      build_graph d1 d2 (some df) = .ok G →
      ∀ e ∈ G.edges, dictGet e.2.2 "relationship"
        = some (AttrVal.str "RELATED_TO")) ∧
    (∀ (s t rc : String) (r : List Cell),
      df.rows = [r] →
      findCol df sourceCandidates = some s →
      findCol df targetCandidates = some t →
      findCol df relCandidates = some rc →
      ("relationship" ∈ df.cols → rc = "relationship") →
      build_graph none none (some df) = .ok G →
      ∀ e ∈ G.edges, dictGet e.2.2 "relationship"
        = some (attrOfCell (some (rowGet (rowPairs df r) rc)))) := by
  constructor
  · intro hno hb e he
    rcases build_graph_ok_elim _ _ _ _ hb with ⟨G1, G2, h1, h2, h3⟩
    have e2 : G2.edges = [] := by
      rw [add_nodes_ok_edges _ _ _ _ h2, add_nodes_ok_edges _ _ _ _ h1]
      rfl
    simp only [add_edges_from_df] at h3
    cases hs : findCol df sourceCandidates with
    | none =>
      rw [hs] at h3
      exact Except.noConfusion h3
    | some s =>
      cases ht : findCol df targetCandidates with
      | none =>
        rw [hs, ht] at h3
        exact Except.noConfusion h3
      | some t =>
        rw [hs, ht] at h3
        have hG : G = df.rows.foldl
            (processRelRow s t (findCol df relCandidates) df) G2 :=
          (Except.ok.inj h3).symm
        rw [hno] at hG
        have hbase : allEdgesGet G2 (AttrVal.str "RELATED_TO") := by
          unfold allEdgesGet
          intro e' he'
          rw [e2] at he'
          exact absurd he' (List.not_mem_nil e')
        have hrow : ∀ r, dictGet (relRowAttrs s t none df r) "relationship"
            = some (AttrVal.str "RELATED_TO") := fun r =>
          relRowAttrs_get s t none df r
            (fun hmem => absurd hmem (relCandidates_unresolved_not_mem df hno))
        have hall := relFold_relget s t none df _ hrow df.rows G2 hbase
        rw [hG] at he
        exact hall e he
  · intro s t rc r hrows hs ht hrc hsafe hb e he
    rcases build_graph_ok_elim _ _ _ _ hb with ⟨G1, G2, h1, h2, h3⟩
    have hG1 : Graph.empty = G1 := Except.ok.inj h1
    have hG2 : G1 = G2 := Except.ok.inj h2
    simp only [add_edges_from_df] at h3
    rw [hs, ht] at h3
    have hG : G = df.rows.foldl
        (processRelRow s t (findCol df relCandidates) df) G2 :=
      (Except.ok.inj h3).symm
    rw [hrc, hrows, ← hG2, ← hG1] at hG
    have hrel : dictGet (relRowAttrs s t (some rc) df r) "relationship"
        = some (relTypeOfRow (some rc) df r) :=
      relRowAttrs_get s t (some rc) df r (fun hmem => by rw [hsafe hmem])
    have hone : allEdgesGet (processRelRow s t (some rc) df Graph.empty r)
        (relTypeOfRow (some rc) df r) :=
      processRelRow_relget _ _ _ _ _ _ _
        (by
          unfold allEdgesGet
          intro e' he'
          exact absurd he' (List.not_mem_nil e'))
        hrel
    rw [hG] at he
    exact hone e he

/-- Witness for the amended C5: first part at a table without any rel-type
alias (sentinel recorded), second part at the empty-cell table (raw NaN
recorded). -/
theorem relation_type_sentinel_witness :
    (∀ e ∈ sentinelGraph.edges, dictGet e.2.2 "relationship"
      = some (AttrVal.str "RELATED_TO")) ∧
    (∀ e ∈ emptyCellGraph.edges, dictGet e.2.2 "relationship"
      = some (attrOfCell (some (rowGet
          (rowPairs relsEmptyCell [some "a", some "b", none])
          "relationship_type")))) :=
  ⟨(relation_type_sentinel none none relsNoRelCol sentinelGraph).1 rfl (by rfl),
   (relation_type_sentinel none none relsEmptyCell emptyCellGraph).2
     "source_id" "target_id" "relationship_type" [some "a", some "b", none]
     rfl rfl rfl rfl (fun hmem => absurd hmem (by decide)) (by rfl)⟩

/-! Column-resolution and failure-propagation lemmas. -/

theorem findCol_first (df : DF) (pre : List String) (c : String)
    (post : List String)
    (hpre : ∀ p ∈ pre, df.cols.contains p = false)
    (hc : df.cols.contains c = true) :
    findCol df (pre ++ c :: post) = some c := by
  unfold findCol
  induction pre with
  | nil =>
    rw [List.nil_append, List.find?_cons, hc]
  | cons p t ih =>
    have hp := hpre p (List.mem_cons_self _ _)
    rw [List.cons_append, List.find?_cons, hp]
    exact ih (fun q hq => hpre q (List.mem_cons_of_mem _ hq))

theorem add_nodes_err (G : Graph) (df : DF) (label : String)
    (h : findCol df idCandidates = none) :
    add_nodes_from_df G (some df) label = .error (idErrorMsg label) := by
  simp only [add_nodes_from_df]
  rw [h]

theorem add_edges_err (G : Graph) (df : DF)
    (h : findCol df sourceCandidates = none ∨
      findCol df targetCandidates = none) :
    add_edges_from_df G (some df) = .error relErrorMsg := by
  simp only [add_edges_from_df]
  rcases h with h | h
  · rw [h]
  · cases hs : findCol df sourceCandidates with
    | none => rfl
    | some s => rw [h]

/-- C8 counterexample: the error raised when the relation table resolves
neither source nor target names the logical fields with example aliases
only — the candidate "from" of the full priority list does not appear in the
message, so the error does not name the full candidate list. -/
theorem resolver_error_cex :
    build_graph none none (some relsBadCols) = .error relErrorMsg ∧
    strContains relErrorMsg "from" = false ∧
    "from" ∈ sourceCandidates :=
  ⟨rfl, rfl, by decide⟩

/-- C8 (amended): column resolution returns the first alias of the priority
list present among the table's columns; an unmatched mandatory node-id field
raises an error naming the field and the full candidate list, while
unmatched relation source/target fields raise a single error naming both
fields with example aliases only (not the full candidate list); unmatched
optional fields (node type, relation type) resolve to absent and processing
succeeds. -/
theorem column_resolution_amended :
    (∀ (df : DF) (pre : List String) (c : String) (post : List String),
      (∀ p ∈ pre, df.cols.contains p = false) →
      df.cols.contains c = true →
      findCol df (pre ++ c :: post) = some c) ∧
    (∀ (G : Graph) (df : DF) (label : String),
      findCol df idCandidates = none →
      add_nodes_from_df G (some df) label = .error (idErrorMsg label)) ∧
    (strContains (idErrorMsg "nodes_doc") "id column" = true ∧
      strContains (idErrorMsg "nodes_doc") "id/node_id/Id/ID" = true) ∧
    (∀ (G : Graph) (df : DF),
      (findCol df sourceCandidates = none ∨
        findCol df targetCandidates = none) →
      add_edges_from_df G (some df) = .error relErrorMsg) ∧
    (strContains relErrorMsg "source" = true ∧
      strContains relErrorMsg "target" = true ∧
      strContains relErrorMsg "from" = false) ∧
    (∀ (G : Graph) (df : DF) (label c : String),
      findCol df idCandidates = some c →
      ∃ G2, add_nodes_from_df G (some df) label = .ok G2) ∧
    (∀ (G : Graph) (df : DF) (s t : String),
      findCol df sourceCandidates = some s →
      findCol df targetCandidates = some t →
      ∃ G2, add_edges_from_df G (some df) = .ok G2) := by
  refine ⟨findCol_first, add_nodes_err, ⟨rfl, rfl⟩, add_edges_err,
    ⟨rfl, rfl, rfl⟩, ?_, ?_⟩
  · intro G df label c hc
    exact ⟨_, add_nodes_total G df label c hc⟩
  · intro G df s t hs ht
    exact ⟨_, add_edges_total G df s t hs ht⟩

/-- Witness for the amended C8: alias priority at a legacy-named table, the
node-id failure, and optional-field success without a relation-type column. -/
theorem column_resolution_amended_witness :
    findCol nodesAlt idCandidates = some "node_id" ∧
    add_nodes_from_df Graph.empty (some relsBadCols) "nodes_doc"
      = .error (idErrorMsg "nodes_doc") ∧
    (∃ G2, add_edges_from_df Graph.empty (some relsNoRelCol) = .ok G2) :=
  ⟨column_resolution_amended.1 nodesAlt ["id"] "node_id" ["Id", "ID"]
    (fun p hp => by
      have h := List.mem_singleton.mp hp
      subst h
      rfl) rfl,
   column_resolution_amended.2.1 Graph.empty relsBadCols "nodes_doc" rfl,
   column_resolution_amended.2.2.2.2.2.2 Graph.empty relsNoRelCol
     "source_id" "target_id" rfl rfl⟩

/-- C9 counterexample: with a first node table lacking any id alias and a
perfectly valid second node table, the whole build raises — no graph is
produced and the valid table's nodes are never assembled, contradicting
"assembly of the remaining tables still completes". -/
theorem schema_failure_aborts_cex :
    build_graph (some nodesNoId) (some nodesGood) none
      = .error (idErrorMsg "nodes_doc") := rfl

/-- C9 (amended): a missing mandatory column (id on a node table, source or
target on the relation table) raises an error identifying the table or the
relations CSV and aborts the entire assembly — the error propagates out of
build_graph, no graph is returned, and neither the failed table nor any
remaining table contributes nodes or edges. -/
theorem schema_failure_aborts (df : DF) (d2 r : Option DF) :
    (findCol df idCandidates = none →
      build_graph (some df) d2 r = .error (idErrorMsg "nodes_doc")) ∧
    (∀ (d1 : Option DF) (G1 : Graph),
      add_nodes_from_df Graph.empty d1 "nodes_doc" = .ok G1 →
      findCol df idCandidates = none →
      build_graph d1 (some df) r = .error (idErrorMsg "nodes_draw")) ∧
    (∀ (d1 : Option DF) (G1 G2 : Graph),
      add_nodes_from_df Graph.empty d1 "nodes_doc" = .ok G1 →
      add_nodes_from_df G1 d2 "nodes_draw" = .ok G2 →
      (findCol df sourceCandidates = none ∨
        findCol df targetCandidates = none) →
      build_graph d1 d2 (some df) = .error relErrorMsg) := by
  refine ⟨?_, ?_, ?_⟩
  · intro hno
    unfold build_graph
    rw [add_nodes_err Graph.empty df "nodes_doc" hno]
  · intro d1 G1 h1 hno
    unfold build_graph
    rw [h1]
    show (match add_nodes_from_df G1 (some df) "nodes_draw" with
          | .error e => (.error e : Except String Graph)
          | .ok g => add_edges_from_df g r) = .error (idErrorMsg "nodes_draw")
    rw [add_nodes_err G1 df "nodes_draw" hno]
  · intro d1 G1 G2 h1 h2 hno
    unfold build_graph
    rw [h1]
    show (match add_nodes_from_df G1 d2 "nodes_draw" with
          | .error e => (.error e : Except String Graph)
          | .ok g => add_edges_from_df g (some df)) = .error relErrorMsg
    rw [h2]
    show add_edges_from_df G2 (some df) = .error relErrorMsg
    exact add_edges_err G2 df hno

/-- Witness for the amended C9 at each of the three failing positions. -/
theorem schema_failure_aborts_witness :
    build_graph (some nodesNoId) (some nodesGood) none
      = .error (idErrorMsg "nodes_doc") ∧
    build_graph (some nodesGood) (some nodesNoId) none
      = .error (idErrorMsg "nodes_draw") ∧
    build_graph none none (some relsBadCols) = .error relErrorMsg :=
  ⟨(schema_failure_aborts nodesNoId (some nodesGood) none).1 rfl,
   (schema_failure_aborts nodesNoId none none).2.1 (some nodesGood)
     goodGraph (by rfl) rfl,
   (schema_failure_aborts relsBadCols none none).2.2 none
     Graph.empty Graph.empty rfl rfl (Or.inl rfl)⟩

/-- C6 counterexample: a whitespace-only cell is retained as a property with
the literal whitespace string — it does not behave like an empty cell, while
the exactly-empty and missing cells of the same row are dropped. -/
theorem whitespace_dropped_cex :
    parse_properties_from_row
      [("id", some "x"), ("note", some "   "), ("empty", some ""),
        ("miss", none)]
      [some "id", none]
      = [("note", AttrVal.str "   ")] := rfl

/-- C6 (amended): a non-structural column contributes a key to the extracted
property mapping exactly when its cell is present and not the exact empty
string — missing cells and empty-string cells are dropped, but a
whitespace-only cell is retained rather than treated as empty. -/
theorem property_key_survival_iff (row : Row) (dc : List (Option String))
    (k : String) :
    (∃ v, (k, v) ∈ parse_properties_from_row row dc) ↔
      (dc.contains (some k) = false ∧ ∃ s, (k, some s) ∈ row ∧ s ≠ "") :=
  parse_properties_key_iff row dc k

/-- Witness for the amended C6: the whitespace-only cell "   " yields a key. -/
theorem property_key_survival_iff_witness :
    ∃ v, ("note", v) ∈ parse_properties_from_row
      [("id", some "x"), ("note", some "   ")] [some "id", none] :=
  (property_key_survival_iff
      [("id", some "x"), ("note", some "   ")] [some "id", none] "note").mpr
    ⟨rfl, "   ", by simp, by decide⟩

/-- C7: every surviving property value is the JSON-upgrade of its original
cell string; decoding is attempted only when the trimmed value is brace- or
bracket-delimited, a successful decode replaces the string ("[1, 2, 3]"
becomes an ordered sequence of three numbers), a failed decode retains the
original string unchanged, and the extractor is a total function (the
`json.loads` exception is absorbed, never propagated). -/
theorem structured_decode_best_effort :
    (∀ (row : Row) (dc : List (Option String)) (k : String) (v : AttrVal),
      (k, v) ∈ parse_properties_from_row row dc →
      ∃ s, (k, some s) ∈ row ∧ v = upgradeValue s) ∧
    (∀ s, bracketDelimited (pyStrip s) = false → upgradeValue s = .str s) ∧
    (∀ s j, bracketDelimited (pyStrip s) = true →
      json_loads (pyStrip s) = some j → upgradeValue s = .json j) ∧
    (∀ s, json_loads (pyStrip s) = none → upgradeValue s = .str s) ∧
    upgradeValue "[1, 2, 3]"
      = AttrVal.json (.arr [.num 1, .num 2, .num 3]) ∧
    upgradeValue "[1, 2," = AttrVal.str "[1, 2," := by
  refine ⟨?_, ?_, ?_, ?_, rfl, rfl⟩
  · intro row dc k v h
    rcases parse_properties_value_src row dc k v h with ⟨s, h1, _, h3⟩
    exact ⟨s, h1, h3⟩
  · intro s hds
    unfold upgradeValue
    rw [if_neg (by simp [hds])]
  · intro s j hd hj
    unfold upgradeValue
    rw [if_pos hd, hj]
  · intro s hn
    unfold upgradeValue
    by_cases hd : bracketDelimited (pyStrip s) = true
    · rw [if_pos hd, hn]
    · rw [if_neg hd]

/-- Witness for C7 at the spec's two example cells. -/
theorem structured_decode_best_effort_witness :
    upgradeValue "[1, 2, 3]"
      = AttrVal.json (.arr [.num 1, .num 2, .num 3]) ∧
    upgradeValue "[1, 2," = AttrVal.str "[1, 2," :=
  ⟨structured_decode_best_effort.2.2.2.2.1,
   structured_decode_best_effort.2.2.2.2.2⟩

/-- Witness for C10 at the spec scenario tables (the relation table's
endpoint "n3" merges by string equality and contributes one node). -/
theorem build_graph_ids_coerced_witness :
    ∃ G, build_graph (some tblA) (some tblB) (some tblR) = .ok G ∧
      G.nodes.map Prod.fst =
        List.foldl insertIfAbsent [] (allIds (some tblA) (some tblB) (some tblR)) :=
  build_graph_ids_coerced (some tblA) (some tblB) (some tblR)
    (fun df hdf => by injection hdf with h; subst h; exact ⟨"id", rfl⟩)
    (fun df hdf => by injection hdf with h; subst h; exact ⟨"id", rfl⟩)
    (fun df hdf => by
      injection hdf with h
      subst h
      exact ⟨⟨"source_id", rfl⟩, ⟨"target_id", rfl⟩⟩)

end KG

